import Mathlib

/-!
Verification of the conversation-export backfill aggregator
(`backfill_claude_export.py`).

The development is a shallow embedding of the aggregation core:
* the text classifier (`analyze_text_personality`, `count_code_blocks`),
* the timestamp normalizer (`parse_timestamp`),
* the aggregator (`process_conversations`),
* the cost estimator (`calculate_costs`),
* the persistence writer (`write_to_sqlite`), and
* the reporter politeness score (`export_json_summary`).

Python machine-level conventions used by the embedding:
* Python `float` arithmetic is modelled by exact rational arithmetic (`ℚ`);
  every numeric value reached by the program stays well inside the range
  where `float` and exact arithmetic agree on the comparisons performed.
* Python `int` values are `Nat`/`Int` (they are arbitrary precision anyway).
* A `datetime` value is modelled by the record `DT` carrying the absolute
  instant in milliseconds, the local hour, and the local calendar-date
  string produced by `strftime` with format `%Y-%m-%d`.
* Library calls that the script treats as black boxes are parameters of the
  embedding, gathered in `Ctx`:
  `fromiso` models `datetime.fromisoformat` followed by `astimezone`
  (returning `none` where the library raises, which the script catches);
  `re_count` models `len(PATTERN.findall(text))` for the module-level
  compiled regular expressions, identified by `PatternId`;
  `code_findall` models `CODE_BLOCK_PATTERN.findall(text)`, the list of
  `(language, body)` captures of fenced code blocks.
* `dict` tables are association lists; `defaultdict(int)` lookups are
  `lookupD` with default `0`.
-/

/-! ## Token estimation (`estimate_tokens`, source lines 63-64 and 111-113) -/

/-- `CHARS_PER_TOKEN = 4` (source line 64). -/
def CHARS_PER_TOKEN : Nat := 4

/-- `estimate_tokens(text) = len(text) // CHARS_PER_TOKEN` (source lines 111-113).
Python `len` on `str` counts code points, as does `String.length`. -/
def estimate_tokens (text : String) : Nat :=
  text.length / CHARS_PER_TOKEN

/-! ## Word lists (source lines 70-72) -/

/-- `CURSE_WORDS` (source line 70). -/
def CURSE_WORDS : List String :=
  ["damn", "hell", "crap", "shit", "fuck", "ass", "bastard", "bitch"]

/-- `POLITE_WORDS` (source line 71). -/
def POLITE_WORDS : List String :=
  ["please", "thank", "thanks", "appreciate", "grateful", "kindly"]

/-- `FRUSTRATION_WORDS` (source line 72). -/
def FRUSTRATION_WORDS : List String :=
  ["frustrated", "annoying", "broken", "stupid", "hate", "ugh", "argh", "wtf"]

/-! ## Elementary string helpers modelling Python `str` methods -/

/-- Python `str.lower`, on the ASCII range the classifier exercises. -/
def pyLower (s : String) : String :=
  String.mk (s.data.map Char.toLower)

/-- A regex `\w` character: alphanumeric or underscore (ASCII range). -/
def isWordChar (c : Char) : Bool :=
  c.isAlphanum || c == '_'

/-- Helper for `findWords`: fold from the right, carrying the current run of
word characters and the list of completed words. -/
def wordsFold (cs : List Char) : List Char × List String :=
  cs.foldr
    (fun c acc =>
      if isWordChar c then (c :: acc.1, acc.2)
      else ([], if acc.1 = [] then acc.2 else String.mk acc.1 :: acc.2))
    ([], [])

/-- `re.findall(r int words, text)` with pattern word-boundary `\w+`:
the maximal runs of word characters, in order (source line 156). -/
def findWords (s : String) : List String :=
  let r := wordsFold s.data
  if r.1 = [] then r.2 else String.mk r.1 :: r.2

/-- Helper for `countSubstr` on character lists; counts non-overlapping
occurrences of the nonempty pattern `pat`, scanning left to right. -/
def countSubAux (pat : List Char) : List Char → Nat
  | [] => 0
  | c :: rest =>
    if pat ≠ [] ∧ pat.isPrefixOf (c :: rest) then
      countSubAux pat (rest.drop (pat.length - 1)) + 1
    else
      countSubAux pat rest
termination_by l => l.length
decreasing_by
  · simp only [List.length_drop, List.length_cons]
    omega
  · simp only [List.length_cons]
    omega

/-- Python `str.count(sub)`: number of non-overlapping occurrences of `sub`,
scanning left to right. -/
def countSubstr (s pat : String) : Nat :=
  countSubAux pat.data s.data

/-! ## The regex parameters of the classifier -/

/-- The module-level compiled regular expressions whose match counts the
classifier reports: `REQUEST_PATTERNS` (source lines 75-82),
`SENTIMENT_PATTERNS` (source lines 85-90) and `CELEBRATION_PATTERN`
(source line 93). The regex engine is a library; the embedding keeps the
patterns abstract and only tracks which pattern feeds which counter. -/
inductive PatternId where
  | debugging
  | features
  | explain
  | refactor
  | review
  | testing
  | positive
  | negative
  | urgent
  | confused
  | celebration
  deriving DecidableEq, Repr

/-! ## Personality analysis (`analyze_text_personality`, source lines 153-189) -/

/-- Number of characters of `text` satisfying `c.isalpha()` (source line 159). -/
def alphaCount (text : String) : Nat :=
  (text.data.filter Char.isAlpha).length

/-- Number of characters of `text` satisfying `c.isupper()` (source line 160). -/
def upperCount (text : String) : Nat :=
  (text.data.filter Char.isUpper).length

/-- The result record of `analyze_text_personality` (source lines 163-188). -/
structure Personality where
  curse_words : Nat
  polite_words : Nat
  frustration_words : Nat
  questions : Nat
  exclamations : Nat
  please_count : Nat
  thanks_count : Nat
  caps_rage : Nat
  lol_count : Nat
  word_count : Nat
  request_debugging : Nat
  request_features : Nat
  request_explain : Nat
  request_refactor : Nat
  request_review : Nat
  request_testing : Nat
  sentiment_positive : Nat
  sentiment_negative : Nat
  sentiment_urgent : Nat
  sentiment_confused : Nat
  celebrations : Nat
  deriving DecidableEq, Repr

/-- `analyze_text_personality(text)` (source lines 153-189), parameterized by
the regex-engine match counter `rc` for the abstract patterns.
The caps-rage flag divides the uppercase count by the alphabetic count
exactly as the source does; the division is only reached under the
`alpha_chars > 5` short-circuit guard. -/
def analyze_text_personality (rc : PatternId → String → Nat) (text : String) :
    Personality :=
  let text_lower := pyLower text
  let words := findWords text_lower
  let alpha_chars := alphaCount text
  let upper_chars := upperCount text
  let caps_rage : Nat :=
    if alpha_chars > 5 ∧ (upper_chars : ℚ) / (alpha_chars : ℚ) > 0.5 then 1 else 0
  { curse_words := (words.filter (fun w => w ∈ CURSE_WORDS)).length
    polite_words := (words.filter (fun w => w ∈ POLITE_WORDS)).length
    frustration_words := (words.filter (fun w => w ∈ FRUSTRATION_WORDS)).length
    questions := countSubstr text "?"
    exclamations := countSubstr text "!"
    please_count := countSubstr text_lower "please"
    thanks_count := countSubstr text_lower "thank"
    caps_rage := caps_rage
    lol_count := (words.filter (fun w => w = "lol")).length
    word_count := words.length
    request_debugging := rc .debugging text
    request_features := rc .features text
    request_explain := rc .explain text
    request_refactor := rc .refactor text
    request_review := rc .review text
    request_testing := rc .testing text
    sentiment_positive := rc .positive text
    sentiment_negative := rc .negative text
    sentiment_urgent := rc .urgent text
    sentiment_confused := rc .confused text
    celebrations := rc .celebration text }

/-! ## Code-block statistics (`count_code_blocks`, source lines 116-136) -/

/-- Association-list update with numeric default `0`: the effect of
`defaultdict(int)[k] += n`. -/
def bump {α : Type} [DecidableEq α] : List (α × Nat) → α → Nat → List (α × Nat)
  | [], k, n => [(k, n)]
  | (a, m) :: t, k, n =>
    if a = k then (a, m + n) :: t else (a, m) :: bump t k n

/-- Association-list lookup with numeric default `0`: `defaultdict(int)[k]`. -/
def lookupD {α : Type} [DecidableEq α] : List (α × Nat) → α → Nat
  | [], _ => 0
  | (a, m) :: t, k => if a = k then m else lookupD t k

/-- The result record of `count_code_blocks` (source lines 118-122). -/
structure CodeStats where
  code_blocks : Nat
  lines_of_code : Nat
  languages : List (String × Nat)
  deriving DecidableEq, Repr

/-- `count_code_blocks(text)` (source lines 116-136), parameterized by
`code_findall`, the `(language, body)` capture list of
`CODE_BLOCK_PATTERN.findall(text)`. Lines of the body are counted when
nonempty after stripping; an absent or blank language tag falls back to
`"other"`. -/
def count_code_blocks (code_findall : String → List (String × String))
    (text : String) : CodeStats :=
  (code_findall text).foldl
    (fun r p =>
      let lines := ((p.2.splitOn "\n").filter (fun line => line.trim ≠ "")).length
      let lang := if p.1 ≠ "" then (pyLower p.1).trim else "other"
      let lang := if lang = "" then "other" else lang
      { code_blocks := r.code_blocks + 1
        lines_of_code := r.lines_of_code + lines
        languages := bump r.languages lang lines })
    ⟨0, 0, []⟩

/-! ## Timestamp normalizer (`parse_timestamp`, source lines 139-150) -/

/-- A parsed, timezone-adjusted timestamp: the absolute instant in
milliseconds (so that `timedelta.total_seconds() * 1000` between two
instants is the difference of the `epochMs` fields), the local hour of day,
and the local date rendered by `strftime` with format `%Y-%m-%d`. -/
structure DT where
  epochMs : ℚ
  hour : Nat
  date : String
  deriving DecidableEq, Repr

/-- Python `ts.replace` substituting every occurrence of the single
character `Z` by `+00:00` (source line 145). -/
def pyReplaceZ (s : String) : String :=
  String.mk (s.data.foldr
    (fun c acc => if c = 'Z' then "+00:00".data ++ acc else c :: acc) [])

/-- `parse_timestamp(ts)` (source lines 139-150): an empty string yields no
timestamp; otherwise the `Z` suffix convention is rewritten and the library
parser `fromiso` (modelling `datetime.fromisoformat` plus `astimezone`, with
`none` standing for the exception the source catches) is consulted. -/
def parse_timestamp (fromiso : String → Option DT) (ts : String) : Option DT :=
  if ts = "" then none
  else fromiso (pyReplaceZ ts)

/-! ## The library-call context -/

/-- The black-box library calls the aggregation pass depends on. -/
structure Ctx where
  fromiso : String → Option DT
  re_count : PatternId → String → Nat
  code_findall : String → List (String × String)

/-! ## Input data model (source lines 252-353 field accesses)

The export document is an array of conversations; each conversation carries
`created_at` and `chat_messages`; each message carries `sender`,
`created_at` and `content`; each content block is a loose record whose
`type` string selects which payload fields are read. Absent string fields
read through `.get(..., '')` or falsy-tested are modelled by `""`; the
`tool_use` payload is carried already serialized (the source serializes a
`dict` input with `json.dumps` and anything else with `str`, source lines
341-345); the `tool_result` payload is the list of the `text` fields of its
dict-shaped sub-blocks, with `""` standing for an absent or empty text. -/

/-- A content block: a loose record dispatched on its `type` string. -/
structure ContentBlock where
  type : String := ""
  text : String := ""
  thinking : String := ""
  start_timestamp : String := ""
  stop_timestamp : String := ""
  input : String := ""
  result_texts : List String := []
  deriving DecidableEq, Repr

/-- A chat message (source lines 267-269, 298). -/
structure Message where
  sender : String := ""
  created_at : String := ""
  content : List ContentBlock := []
  deriving DecidableEq, Repr

/-- A conversation (source lines 253, 264). -/
structure Conversation where
  created_at : String := ""
  chat_messages : List Message := []
  deriving DecidableEq, Repr

/-! ## The daily aggregate record (source lines 207-247)

One record per calendar date, with every counter zero-initialized exactly
as the `defaultdict` factory does. The `cost`, `cache_read_tokens` and
`cache_write_tokens` fields are added by `calculate_costs` (source lines
386-388) and stay at their `0` default during the aggregation pass. -/

/-- The per-date counter record built by the aggregation pass. -/
structure DayStats where
  messages : Nat := 0
  human_messages : Nat := 0
  assistant_messages : Nat := 0
  input_tokens : Nat := 0
  output_tokens : Nat := 0
  sessions : Nat := 0
  thinking_time_ms : ℚ := 0
  user_active_time_ms : ℚ := 0
  curse_words : Nat := 0
  polite_words : Nat := 0
  frustration_words : Nat := 0
  questions : Nat := 0
  exclamations : Nat := 0
  please_count : Nat := 0
  thanks_count : Nat := 0
  caps_rage : Nat := 0
  lol_count : Nat := 0
  word_count : Nat := 0
  request_debugging : Nat := 0
  request_features : Nat := 0
  request_explain : Nat := 0
  request_refactor : Nat := 0
  request_review : Nat := 0
  request_testing : Nat := 0
  sentiment_positive : Nat := 0
  sentiment_negative : Nat := 0
  sentiment_urgent : Nat := 0
  sentiment_confused : Nat := 0
  celebrations : Nat := 0
  code_blocks : Nat := 0
  lines_of_code : Nat := 0
  languages : List (String × Nat) := []
  hours : List (Nat × Nat) := []
  cost : ℚ := 0
  cache_read_tokens : Nat := 0
  cache_write_tokens : Nat := 0
  deriving DecidableEq, Repr

/-- The daily-aggregates table `daily_stats`, as a total map realizing the
`defaultdict` semantics: every date key reads as the zero-initialized
record until it is updated. -/
def DayMap : Type := String → DayStats

/-- Point update of the daily table: `daily_stats[date]` mutation. -/
def upd (m : DayMap) (d : String) (f : DayStats → DayStats) : DayMap :=
  fun k => if k = d then f (m k) else m k

/-- Adding the whole personality result of a human text block to the
matching counters of the date record (source lines 309-314; the
`word_count` arm of the source loop performs the same addition as the
general arm). -/
def addPersonality (p : Personality) (s : DayStats) : DayStats :=
  { s with
    curse_words := s.curse_words + p.curse_words
    polite_words := s.polite_words + p.polite_words
    frustration_words := s.frustration_words + p.frustration_words
    questions := s.questions + p.questions
    exclamations := s.exclamations + p.exclamations
    please_count := s.please_count + p.please_count
    thanks_count := s.thanks_count + p.thanks_count
    caps_rage := s.caps_rage + p.caps_rage
    lol_count := s.lol_count + p.lol_count
    word_count := s.word_count + p.word_count
    request_debugging := s.request_debugging + p.request_debugging
    request_features := s.request_features + p.request_features
    request_explain := s.request_explain + p.request_explain
    request_refactor := s.request_refactor + p.request_refactor
    request_review := s.request_review + p.request_review
    request_testing := s.request_testing + p.request_testing
    sentiment_positive := s.sentiment_positive + p.sentiment_positive
    sentiment_negative := s.sentiment_negative + p.sentiment_negative
    sentiment_urgent := s.sentiment_urgent + p.sentiment_urgent
    sentiment_confused := s.sentiment_confused + p.sentiment_confused
    celebrations := s.celebrations + p.celebrations }

/-- Merging the per-language line counts of one assistant text block into
the date record (source lines 321-322). -/
def addLangs (base : List (String × Nat)) (ls : List (String × Nat)) :
    List (String × Nat) :=
  ls.foldl (fun acc p => bump acc p.1 p.2) base

/-- The effect of one content block on its date record: the content-type
dispatch of the source (lines 298-353). Every branch mutates only
`daily_stats[date]`, so the effect is a `DayStats` transformer. -/
def contentUpdate (ctx : Ctx) (sender : String) (c : ContentBlock)
    (s : DayStats) : DayStats :=
  if c.type = "text" then
    let tokens := estimate_tokens c.text
    if sender = "human" then
      addPersonality (analyze_text_personality ctx.re_count c.text)
        { s with input_tokens := s.input_tokens + tokens }
    else
      let code_stats := count_code_blocks ctx.code_findall c.text
      { s with
        output_tokens := s.output_tokens + tokens
        code_blocks := s.code_blocks + code_stats.code_blocks
        lines_of_code := s.lines_of_code + code_stats.lines_of_code
        languages := addLangs s.languages code_stats.languages }
  else if c.type = "thinking" then
    let s := { s with
      output_tokens := s.output_tokens + estimate_tokens c.thinking }
    if c.start_timestamp ≠ "" ∧ c.stop_timestamp ≠ "" then
      match parse_timestamp ctx.fromiso c.start_timestamp,
            parse_timestamp ctx.fromiso c.stop_timestamp with
      | some t1, some t2 =>
        { s with thinking_time_ms :=
            s.thinking_time_ms + (t2.epochMs - t1.epochMs) }
      | _, _ => s
    else s
  else if c.type = "tool_use" then
    { s with output_tokens := s.output_tokens + estimate_tokens c.input }
  else if c.type = "tool_result" then
    { s with input_tokens := s.input_tokens +
        (c.result_texts.foldl
          (fun acc t => if t ≠ "" then acc + estimate_tokens t else acc) 0) }
  else s

/-- The timestamp phase of one message (source lines 271-288): on a parsed
timestamp, tally the hour of day; for a human message with a previous human
timestamp, add the millisecond delta to the active-time counter when it is
positive and below thirty minutes; after any human message with a parsed
timestamp, advance the carry-forward timestamp. On a missing or unparsable
timestamp the whole phase is skipped. -/
def msgTimeStep (ctx : Ctx) (st : DayStats × Option DT) (msg : Message) :
    DayStats × Option DT :=
  if msg.created_at ≠ "" then
    match parse_timestamp ctx.fromiso msg.created_at with
    | some dt =>
      let s := { st.1 with hours := bump st.1.hours dt.hour 1 }
      let s :=
        if msg.sender = "human" then
          match st.2 with
          | some p =>
            let delta : ℚ := dt.epochMs - p.epochMs
            if 0 < delta ∧ delta < 30 * 60 * 1000 then
              { s with user_active_time_ms := s.user_active_time_ms + delta }
            else s
          | none => s
        else s
      (s, if msg.sender = "human" then some dt else st.2)
    | none => st
  else st

/-- One message of a conversation (source lines 267-353): the timestamp
phase, then the message counters (every message counts; the sender
counters only for the two recognized senders), then the content blocks in
order. The state pairs the date record of the conversation with the
carry-forward previous-human timestamp. -/
def processMessageDay (ctx : Ctx) (st : DayStats × Option DT)
    (msg : Message) : DayStats × Option DT :=
  let st := msgTimeStep ctx st msg
  let s := { st.1 with messages := st.1.messages + 1 }
  let s :=
    if msg.sender = "human" then
      { s with human_messages := s.human_messages + 1 }
    else if msg.sender = "assistant" then
      { s with assistant_messages := s.assistant_messages + 1 }
    else s
  let s := msg.content.foldl (fun s c => contentUpdate ctx msg.sender c s) s
  (s, st.2)

/-- The date a conversation is bucketed under (source lines 253-261): the
local date of its creation timestamp, or nothing when the timestamp is
missing or unparsable (in which case the conversation is skipped). -/
def convDate (ctx : Ctx) (conv : Conversation) : Option String :=
  if conv.created_at = "" then none
  else (parse_timestamp ctx.fromiso conv.created_at).map DT.date

/-- The effect of one conversation on its date record (source lines
262-353): one session, then the messages in order starting from an empty
carry-forward timestamp. -/
def processConversationDay (ctx : Ctx) (conv : Conversation)
    (s : DayStats) : DayStats :=
  (conv.chat_messages.foldl (processMessageDay ctx)
    ({ s with sessions := s.sessions + 1 }, none)).1

/-- One conversation of the export (source lines 252-353): skipped without
a parsable creation timestamp, otherwise folded into its date record. -/
def processConversation (ctx : Ctx) (m : DayMap) (conv : Conversation) :
    DayMap :=
  match convDate ctx conv with
  | none => m
  | some d => upd m d (processConversationDay ctx conv)

/-- `process_conversations` (source lines 192-355): the single aggregation
pass over the conversation list, starting from the all-zero table. -/
def process_conversations (ctx : Ctx) (convs : List Conversation) : DayMap :=
  convs.foldl (processConversation ctx) (fun _ => {})

/-! ## Cost estimator (`MODEL_PRICING`, `get_cache_rates`,
`calculate_costs`; source lines 49-61 and 358-390) -/

/-- One entry of the pricing table: per-million-token rates. -/
structure Pricing where
  input : ℚ
  output : ℚ
  deriving DecidableEq, Repr

/-- `MODEL_PRICING` (source lines 49-54). -/
def MODEL_PRICING (model : String) : Pricing :=
  if model = "opus" then ⟨15, 75⟩
  else if model = "sonnet" then ⟨3, 15⟩
  else if model = "haiku" then ⟨0.25, 1.25⟩
  else ⟨3, 15⟩

/-- Round-half-to-even on an exact rational: the tie-breaking rule both of
IEEE-754 binary64 arithmetic and of Python `round`. -/
def round_half_even (x : ℚ) : ℤ :=
  let f := ⌊x⌋
  let r := x - f
  if r < 1/2 then f
  else if 1/2 < r then f + 1
  else if f % 2 = 0 then f else f + 1

/-- Rounding of an exact rational to the nearest IEEE-754 binary64 double
(round-to-nearest, ties-to-even): the value is forced onto the grid of
spacing `2 ^ (Int.log 2 |x| - 52)`, the ulp of its binade.  CPython
guarantees that `int / int` true division, `float` addition and
multiplication, and `int * float` (after converting the `int`) are each
correctly rounded, i.e. produce `fl` of the exact rational result; the
quantities this program reaches are far inside the normal range, so
subnormals and overflow do not arise. -/
def fl (x : ℚ) : ℚ :=
  if x = 0 then 0
  else if 0 < x then
    (round_half_even (x / 2 ^ (Int.log 2 x - 52)) : ℚ)
      * 2 ^ (Int.log 2 x - 52)
  else
    -((round_half_even (-x / 2 ^ (Int.log 2 (-x) - 52)) : ℚ)
        * 2 ^ (Int.log 2 (-x) - 52))

/-- `get_cache_rates(pricing)` (source lines 56-61): a 90 percent discount
for cache reads and a 25 percent premium for cache writes, derived from
the input rate.  The literals `0.1` and `1.25` denote the nearest doubles
and the products are double multiplications, hence the `fl` at each
step. -/
def get_cache_rates (pricing : Pricing) : ℚ × ℚ :=
  (fl (pricing.input * fl 0.1), fl (pricing.input * fl 1.25))

/-- Python `round(x, 4)` on a double `x`: CPython rounds the exact decimal
scaling of the stored binary value half-to-even, then returns the double
nearest the resulting 4-digit decimal. -/
def pyRound4 (x : ℚ) : ℚ :=
  fl ((round_half_even (x * 10000) : ℚ) / 10000)

/-- The body of the `calculate_costs` loop for one date record (source
lines 364-388): the estimated cache split of the input tokens (Python
`int(...)` truncation of a non-negative value is a floor, taken of the
double product `input_tokens * 0.6` resp. `* 0.1`), the Sonnet pricing
tier, and the four-term cost formula, every float operation rounded
through `fl` exactly as IEEE-754 evaluation performs it, with the sum
associated to the left as Python evaluates it, rounded to four decimals
at the end. -/
def calculate_costs_day (s : DayStats) : DayStats :=
  let pricing := MODEL_PRICING "sonnet"
  let rates := get_cache_rates pricing
  let input_tokens := s.input_tokens
  let output_tokens := s.output_tokens
  let cache_read_tokens : Nat :=
    Int.toNat ⌊fl (fl (input_tokens : ℚ) * fl 0.6)⌋
  let cache_write_tokens : Nat :=
    Int.toNat ⌊fl (fl (input_tokens : ℚ) * fl 0.1)⌋
  let regular_input_tokens := input_tokens - cache_read_tokens - cache_write_tokens
  let cost : ℚ :=
    fl (fl (fl (fl (fl ((regular_input_tokens : ℚ) / 1000000) * pricing.input)
          + fl (fl ((output_tokens : ℚ) / 1000000) * pricing.output))
        + fl (fl ((cache_read_tokens : ℚ) / 1000000) * rates.1))
      + fl (fl ((cache_write_tokens : ℚ) / 1000000) * rates.2))
  { s with
    cost := pyRound4 cost
    cache_read_tokens := cache_read_tokens
    cache_write_tokens := cache_write_tokens }

/-- `calculate_costs(daily_stats)` (source lines 358-390): the per-date
cost fields are filled in for every date record. -/
def calculate_costs (m : DayMap) : DayMap :=
  fun d => calculate_costs_day (m d)

/-! ## Reporter totals and politeness score
(`export_json_summary`, source lines 558-610) -/

/-- The fold of `please_count` over the per-date records (source line 573). -/
def total_please_count (l : List (String × DayStats)) : Nat :=
  l.foldl (fun n p => n + p.2.please_count) 0

/-- The fold of `thanks_count` over the per-date records (source line 574). -/
def total_thanks_count (l : List (String × DayStats)) : Nat :=
  l.foldl (fun n p => n + p.2.thanks_count) 0

/-- The fold of `human_messages` over the per-date records (source line 560). -/
def total_human_messages (l : List (String × DayStats)) : Nat :=
  l.foldl (fun n p => n + p.2.human_messages) 0

/-- The lifetime politeness score (source lines 607-610):
`min(100, int((please + thanks) / max(human, 1) * 100))`.  The division is
Python `int / int` true division, producing a double, and the `* 100`
double multiplication rounds again, hence the two `fl`; Python `int()`
then truncates toward zero, which on this non-negative value is the
floor. -/
def politeness_score (l : List (String × DayStats)) : Nat :=
  min 100 (Int.toNat
    ⌊fl (fl ((total_please_count l + total_thanks_count l : ℚ)
        / (max (total_human_messages l) 1 : ℚ)) * 100)⌋)

/-- Modelled from the claim wording for the politeness score, for
comparison with the source computation: the percentage is rounded to the
nearest integer (`round`) before capping at 100. -/
def politeness_score_claimed (l : List (String × DayStats)) : Nat :=
  min 100 (Int.toNat (round_half_even
    (((total_please_count l + total_thanks_count l : ℚ)
        / (max (total_human_messages l) 1 : ℚ)) * 100)))

/-! ## Persistence writer (`write_to_sqlite`, source lines 398-509)

Dates are the `%Y-%m-%d` strings; both Python string comparison and the
SQL `MIN` over a `TEXT` column order them lexicographically by code point,
modelled by `strLe`. -/

/-- Lexicographic order on character lists by code point. -/
def lexLe : List Char → List Char → Bool
  | [], _ => true
  | _ :: _, [] => false
  | a :: as, b :: bs =>
    if a.toNat < b.toNat then true
    else if b.toNat < a.toNat then false
    else lexLe as bs

/-- Python `<=` on strings (code-point lexicographic order). -/
def strLe (a b : String) : Bool :=
  lexLe a.data b.data

/-- `min` of two date strings under `strLe`. -/
def strMin (a b : String) : String :=
  if strLe a b then a else b

/-- `SELECT MIN(date)` over a list of date strings (source line 460). -/
def minDate : List String → Option String
  | [] => none
  | d :: ds => some (ds.foldl strMin d)

/-- A row of the `daily_snapshots` table (source lines 436-445,
491-494). -/
structure SnapshotRow where
  cost : ℚ
  messages : Nat
  tokens : Nat
  sessions : Nat
  deriving DecidableEq, Repr

/-- A row of the `model_usage` table (source lines 447-457, 497-502). -/
structure ModelUsageRow where
  input_tokens : Nat
  output_tokens : Nat
  cache_read_tokens : Nat
  cache_write_tokens : Nat
  deriving DecidableEq, Repr

/-- The persistent store: the two date-keyed tables. -/
structure Store where
  daily_snapshots : List (String × SnapshotRow)
  model_usage : List ((String × String) × ModelUsageRow)
  deriving DecidableEq, Repr

/-- `INSERT OR REPLACE` into a keyed table: replace every row carrying the
key if one exists, otherwise append the new row. -/
def insertOrReplace {κ ρ : Type} [DecidableEq κ]
    (t : List (κ × ρ)) (k : κ) (v : ρ) : List (κ × ρ) :=
  if k ∈ t.map Prod.fst then
    t.map (fun p => if p.1 = k then (k, v) else p)
  else t ++ [(k, v)]

/-- Table lookup by key (the first row stored under `k`, if any). -/
def lookupTable {κ ρ : Type} [DecidableEq κ] :
    List (κ × ρ) → κ → Option ρ
  | [], _ => none
  | p :: t, k => if p.1 = k then some p.2 else lookupTable t k

/-- The dates present in `daily_snapshots` (source lines 475-476). -/
def existing_dates (store : Store) : List String :=
  store.daily_snapshots.map Prod.fst

/-- The earliest existing date (source lines 460-462): the SQL `MIN`, with
a falsy result (empty table, or an empty-string minimum) collapsed to
nothing by `result[0] if result and result[0] else None`. -/
def earliest_date (store : Store) : Option String :=
  match minDate (existing_dates store) with
  | some e => if e = "" then none else some e
  | none => none

/-- The running state of the write loop (source lines 470-504). -/
structure WriteResult where
  store : Store
  imported : Nat
  skipped_exists : Nat
  skipped_after : Nat
  deriving Repr

/-- One iteration of the write loop (source lines 478-504): skip a date
already present; skip a date at or after the earliest existing date;
otherwise insert the snapshot row and the `claude-web` model-usage row. -/
def writeDay (earliest : Option String) (existing : List String)
    (acc : WriteResult) (entry : String × DayStats) : WriteResult :=
  let date := entry.1
  let stats := entry.2
  if date ∈ existing then
    { acc with skipped_exists := acc.skipped_exists + 1 }
  else if (match earliest with
           | some e => strLe e date
           | none => false) then
    { acc with skipped_after := acc.skipped_after + 1 }
  else
    let total_tokens := stats.input_tokens + stats.output_tokens
    { acc with
      store :=
        { daily_snapshots := insertOrReplace acc.store.daily_snapshots date
            ⟨stats.cost, stats.messages, total_tokens, stats.sessions⟩
          model_usage := insertOrReplace acc.store.model_usage
            (date, "claude-web")
            ⟨stats.input_tokens, stats.output_tokens,
             stats.cache_read_tokens, stats.cache_write_tokens⟩ }
      imported := acc.imported + 1 }

/-- Insertion step of `sorted(daily_stats.items())` by date key. -/
def insertByDate (e : String × DayStats) :
    List (String × DayStats) → List (String × DayStats)
  | [] => [e]
  | f :: t => if strLe e.1 f.1 then e :: f :: t else f :: insertByDate e t

/-- `sorted(daily_stats.items())` (source line 478): the per-date entries
in ascending date order (date keys of a dict are distinct, so the value
component never decides the order). -/
def sortByDate : List (String × DayStats) → List (String × DayStats)
  | [] => []
  | e :: t => insertByDate e (sortByDate t)

/-- `write_to_sqlite(daily_stats, db_path)` (source lines 414-509), acting
on the modelled store: the earliest date and the existing-date set are read
once up front, then every per-date entry is skipped or inserted. -/
def write_to_sqlite (daily_stats : List (String × DayStats))
    (store : Store) : WriteResult :=
  let earliest := earliest_date store
  let existing := existing_dates store
  (sortByDate daily_stats).foldl (writeDay earliest existing)
    ⟨store, 0, 0, 0⟩

/-! ## Theorems -/

/-- **C9**: for every input text, `estimate_tokens(text)` equals
`floor(len(text)/4)`; it is non-negative for every input and monotone in
input length. -/
theorem C9_estimate_tokens_spec :
    (∀ t : String, estimate_tokens t = t.length / 4) ∧
    (∀ t : String, 0 ≤ estimate_tokens t) ∧
    (∀ s t : String, s.length ≤ t.length →
      estimate_tokens s ≤ estimate_tokens t) :=
  ⟨fun _ => rfl, fun _ => Nat.zero_le _,
   fun _ _ h => Nat.div_le_div_right h⟩

/-- Witness for **C9** at concrete inputs. -/
theorem C9_estimate_tokens_spec_witness :
    estimate_tokens "ab" ≤ estimate_tokens "abcdefgh" :=
  C9_estimate_tokens_spec.2.2 "ab" "abcdefgh" (by decide)

/-- The caps-rage flag of the classifier, in closed form. -/
theorem caps_rage_closed_form (rc : PatternId → String → Nat)
    (text : String) :
    (analyze_text_personality rc text).caps_rage =
      if alphaCount text > 5 ∧
          (upperCount text : ℚ) / (alphaCount text : ℚ) > 0.5
      then 1 else 0 :=
  rfl

/-- **C4**: the caps-rage flag is `1` iff the alphabetic-character count
exceeds 5 and the uppercase fraction of alphabetic characters exceeds one
half; the three boundary examples of the specification evaluate as
claimed. -/
theorem C4_caps_rage_spec :
    (∀ (rc : PatternId → String → Nat) (text : String),
      (analyze_text_personality rc text).caps_rage = 1 ↔
        (alphaCount text > 5 ∧ 2 * upperCount text > alphaCount text)) ∧
    (∀ rc, (analyze_text_personality rc "HELLO there").caps_rage = 0) ∧
    (∀ rc, (analyze_text_personality rc "HELLO!!").caps_rage = 0) ∧
    (∀ rc, (analyze_text_personality rc "HELLO WORLD").caps_rage = 1) := by
  have key : ∀ (rc : PatternId → String → Nat) (text : String),
      (analyze_text_personality rc text).caps_rage = 1 ↔
        (alphaCount text > 5 ∧ 2 * upperCount text > alphaCount text) := by
    intro rc text
    rw [caps_rage_closed_form]
    constructor
    · intro h
      by_cases hc : alphaCount text > 5 ∧
          (upperCount text : ℚ) / (alphaCount text : ℚ) > 0.5
      · obtain ⟨h1, h2⟩ := hc
        refine ⟨h1, ?_⟩
        have ha : (0 : ℚ) < (alphaCount text : ℚ) := by
          exact_mod_cast Nat.lt_of_lt_of_le (by norm_num) h1.le
        rw [gt_iff_lt, lt_div_iff ha] at h2
        have : (alphaCount text : ℚ) < 2 * (upperCount text : ℚ) := by
          linarith
        exact_mod_cast this
      · simp [hc] at h
    · rintro ⟨h1, h2⟩
      have ha : (0 : ℚ) < (alphaCount text : ℚ) := by
        exact_mod_cast Nat.lt_of_lt_of_le (by norm_num) h1.le
      have h2q : (alphaCount text : ℚ) < 2 * (upperCount text : ℚ) := by
        exact_mod_cast h2
      have : (0.5 : ℚ) < (upperCount text : ℚ) / (alphaCount text : ℚ) := by
        rw [lt_div_iff ha]
        linarith
      simp [h1, this]
  refine ⟨key, ?_, ?_, ?_⟩
  · intro rc
    rw [caps_rage_closed_form,
      show alphaCount "HELLO there" = 10 by decide,
      show upperCount "HELLO there" = 5 by decide]
    norm_num
  · intro rc
    rw [caps_rage_closed_form,
      show alphaCount "HELLO!!" = 5 by decide,
      show upperCount "HELLO!!" = 5 by decide]
    norm_num
  · intro rc
    rw [caps_rage_closed_form,
      show alphaCount "HELLO WORLD" = 10 by decide,
      show upperCount "HELLO WORLD" = 10 by decide]
    norm_num

/-- `Int.log 2` pinned down by a bracketing pair of powers of two. -/
theorem Intlog_eq (x : ℚ) (k : ℤ) (hx : 0 < x)
    (h1 : (2 : ℚ) ^ k ≤ x) (h2 : x < (2 : ℚ) ^ (k + 1)) :
    Int.log 2 x = k := by
  have hb : (1 : ℕ) < 2 := by norm_num
  have hc : ((2 : ℕ) : ℚ) = (2 : ℚ) := by norm_num
  have ha : k ≤ Int.log 2 x := by
    rw [← Int.zpow_le_iff_le_log hb hx, hc]
    exact h1
  have hb2 : Int.log 2 x < k + 1 := by
    rw [← Int.lt_zpow_iff_log_lt hb hx, hc]
    exact h2
  omega

/-- Evaluation rule for `round_half_even` from the floor and the
fractional part: the two clear cases and the two halves of a tie. -/
theorem rhe_eval (q : ℚ) (f m : ℤ) (hf : ⌊q⌋ = f)
    (h : (q - f < 1/2 ∧ m = f) ∨ (1/2 < q - f ∧ m = f + 1)
      ∨ (q - f = 1/2 ∧ f % 2 = 0 ∧ m = f)
      ∨ (q - f = 1/2 ∧ f % 2 = 1 ∧ m = f + 1)) :
    round_half_even q = m := by
  unfold round_half_even
  rw [hf]
  dsimp only
  rcases h with ⟨h1, rfl⟩ | ⟨h1, rfl⟩ | ⟨h1, h2, rfl⟩ | ⟨h1, h2, rfl⟩
  · rw [if_pos h1]
  · rw [if_neg (by linarith), if_pos h1]
  · rw [if_neg (by linarith), if_neg (by linarith), if_pos h2]
  · rw [if_neg (by linarith), if_neg (by linarith), if_neg (by omega)]

/-- Evaluation rule for `fl` at a positive rational: exhibit the binade
exponent, the ulp, the rounded significand and the value. -/
theorem fl_eval (x : ℚ) (k : ℤ) (s : ℚ) (m : ℤ) (v : ℚ)
    (hx : 0 < x) (h1 : (2 : ℚ) ^ k ≤ x) (h2 : x < (2 : ℚ) ^ (k + 1))
    (hs : (2 : ℚ) ^ (k - 52) = s)
    (hm : round_half_even (x / s) = m)
    (hv : (m : ℚ) * s = v) :
    fl x = v := by
  have hk : Int.log 2 x = k := Intlog_eq x k hx h1 h2
  unfold fl
  rw [if_neg (ne_of_gt hx), if_pos hx, hk, hs, hm, hv]

/-- Truncation never exceeds rounding half-to-even of the same value. -/
theorem floor_le_rhe (q : ℚ) : ⌊q⌋ ≤ round_half_even q := by
  unfold round_half_even
  dsimp only
  split_ifs <;> omega

/-- Modelled from the claim wording for the per-date cost estimate, read
in exact arithmetic as the claim states it: the cache split
`cache_read = floor(input * 0.6)`, `cache_write = floor(input * 0.1)`,
`regular = input - cache_read - cache_write`, the mid-tier rates
`input_rate = 3`, `output_rate = 15`,
`cache_read_rate = input_rate * 0.1`,
`cache_write_rate = input_rate * 1.25`, and the four-term cost rounded to
four decimal places. Returns `(cost, cache_read, cache_write)`. -/
def cost_claimed (input output : Nat) : ℚ × Nat × Nat :=
  let cache_read : Nat := Int.toNat ⌊(input : ℚ) * 0.6⌋
  let cache_write : Nat := Int.toNat ⌊(input : ℚ) * 0.1⌋
  let regular : Nat := input - cache_read - cache_write
  let input_rate : ℚ := 3
  let output_rate : ℚ := 15
  let cache_read_rate : ℚ := input_rate * 0.1
  let cache_write_rate : ℚ := input_rate * 1.25
  ((round_half_even (((regular : ℚ) / 1000000 * input_rate
      + (output : ℚ) / 1000000 * output_rate
      + (cache_read : ℚ) / 1000000 * cache_read_rate
      + (cache_write : ℚ) / 1000000 * cache_write_rate) * 10000) : ℚ)
        / 10000,
   cache_read, cache_write)

/-- The claimed cost formula re-read over IEEE-754 doubles, i.e. with
every arithmetic step rounded by `fl` exactly as Python evaluates it. -/
def cost_claimed_float (input output : Nat) : ℚ × Nat × Nat :=
  let cache_read : Nat := Int.toNat ⌊fl (fl (input : ℚ) * fl 0.6)⌋
  let cache_write : Nat := Int.toNat ⌊fl (fl (input : ℚ) * fl 0.1)⌋
  let regular : Nat := input - cache_read - cache_write
  let input_rate : ℚ := 3
  let output_rate : ℚ := 15
  let cache_read_rate : ℚ := fl (input_rate * fl 0.1)
  let cache_write_rate : ℚ := fl (input_rate * fl 1.25)
  (pyRound4 (fl (fl (fl (fl (fl ((regular : ℚ) / 1000000) * input_rate)
          + fl (fl ((output : ℚ) / 1000000) * output_rate))
        + fl (fl ((cache_read : ℚ) / 1000000) * cache_read_rate))
      + fl (fl ((cache_write : ℚ) / 1000000) * cache_write_rate))),
   cache_read, cache_write)

/-- The one-date record driving the C5 refutation: 3401 input tokens and
no output tokens. -/
def C5rec : DayStats :=
  { input_tokens := 3401 }

/-- **C5 (counterexample)**: at 3401 input tokens the exact value of the
four-term formula is 0.00495, which the claimed exact reading rounds
half-to-even up to 0.0050; but the program computes over doubles, its
float sum is the double 0.0049499999999999995…, strictly below the tie,
so `round(…, 4)` stores the double nearest 0.0049 instead. -/
theorem C5_counterexample :
    (calculate_costs_day C5rec).cost = fl ((49 : ℚ) / 10000) ∧
    (cost_claimed 3401 0).1 = (50 : ℚ) / 10000 ∧
    fl ((49 : ℚ) / 10000) ≠ (50 : ℚ) / 10000 := by
    have hfl1 : fl (3/5 : ℚ) = (5404319552844595/9007199254740992 : ℚ) :=
      fl_eval (3/5 : ℚ) (-1 : ℤ) (1/9007199254740992 : ℚ) (5404319552844595 : ℤ) (5404319552844595/9007199254740992 : ℚ)
        (by norm_num) (by norm_num) (by norm_num) (by norm_num)
        (rhe_eval _ (5404319552844595 : ℤ) (5404319552844595 : ℤ)
          (by norm_num [Int.floor_eq_iff]) (by norm_num))
        (by norm_num)
    have hfl2 : fl (1/10 : ℚ) = (3602879701896397/36028797018963968 : ℚ) :=
      fl_eval (1/10 : ℚ) (-4 : ℤ) (1/72057594037927936 : ℚ) (7205759403792794 : ℤ) (3602879701896397/36028797018963968 : ℚ)
        (by norm_num) (by norm_num) (by norm_num) (by norm_num)
        (rhe_eval _ (7205759403792793 : ℤ) (7205759403792794 : ℤ)
          (by norm_num [Int.floor_eq_iff]) (by norm_num))
        (by norm_num)
    have hfl3 : fl (3401 : ℚ) = (3401 : ℚ) :=
      fl_eval (3401 : ℚ) (11 : ℤ) (1/2199023255552 : ℚ) (7478878092132352 : ℤ) (3401 : ℚ)
        (by norm_num) (by norm_num) (by norm_num) (by norm_num)
        (rhe_eval _ (7478878092132352 : ℤ) (7478878092132352 : ℤ)
          (by norm_num [Int.floor_eq_iff]) (by norm_num))
        (by norm_num)
    have hfl4 : fl (18380090799224467595/9007199254740992 : ℚ) = (4487326855279411/2199023255552 : ℚ) :=
      fl_eval (18380090799224467595/9007199254740992 : ℚ) (10 : ℤ) (1/4398046511104 : ℚ) (8974653710558822 : ℤ) (4487326855279411/2199023255552 : ℚ)
        (by norm_num) (by norm_num) (by norm_num) (by norm_num)
        (rhe_eval _ (8974653710558822 : ℤ) (8974653710558822 : ℤ)
          (by norm_num [Int.floor_eq_iff]) (by norm_num))
        (by norm_num)
    have hfl5 : fl (12253393866149646197/36028797018963968 : ℚ) = (2991551236852941/8796093022208 : ℚ) :=
      fl_eval (12253393866149646197/36028797018963968 : ℚ) (8 : ℤ) (1/17592186044416 : ℚ) (5983102473705882 : ℤ) (2991551236852941/8796093022208 : ℚ)
        (by norm_num) (by norm_num) (by norm_num) (by norm_num)
        (rhe_eval _ (5983102473705881 : ℤ) (5983102473705882 : ℤ)
          (by norm_num [Int.floor_eq_iff]) (by norm_num))
        (by norm_num)
    have hfl6 : fl (1021/1000000 : ℚ) = (4708531424814363/4611686018427387904 : ℚ) :=
      fl_eval (1021/1000000 : ℚ) (-10 : ℤ) (1/4611686018427387904 : ℚ) (4708531424814363 : ℤ) (4708531424814363/4611686018427387904 : ℚ)
        (by norm_num) (by norm_num) (by norm_num) (by norm_num)
        (rhe_eval _ (4708531424814363 : ℤ) (4708531424814363 : ℤ)
          (by norm_num [Int.floor_eq_iff]) (by norm_num))
        (by norm_num)
    have hfl7 : fl (14125594274443089/4611686018427387904 : ℚ) = (882849642152693/288230376151711744 : ℚ) :=
      fl_eval (14125594274443089/4611686018427387904 : ℚ) (-9 : ℤ) (1/2305843009213693952 : ℚ) (7062797137221544 : ℤ) (882849642152693/288230376151711744 : ℚ)
        (by norm_num) (by norm_num) (by norm_num) (by norm_num)
        (rhe_eval _ (7062797137221544 : ℤ) (7062797137221544 : ℤ)
          (by norm_num [Int.floor_eq_iff]) (by norm_num))
        (by norm_num)
    have hfl0 : fl (0 : ℚ) = (0 : ℚ) := by
      unfold fl
      simp
    have hfl8 : fl (10808639105689191/36028797018963968 : ℚ) = (1351079888211149/4503599627370496 : ℚ) :=
      fl_eval (10808639105689191/36028797018963968 : ℚ) (-2 : ℤ) (1/18014398509481984 : ℚ) (5404319552844596 : ℤ) (1351079888211149/4503599627370496 : ℚ)
        (by norm_num) (by norm_num) (by norm_num) (by norm_num)
        (rhe_eval _ (5404319552844595 : ℤ) (5404319552844596 : ℤ)
          (by norm_num [Int.floor_eq_iff]) (by norm_num))
        (by norm_num)
    have hfl9 : fl (51/25000 : ℚ) = (146997491837373/72057594037927936 : ℚ) :=
      fl_eval (51/25000 : ℚ) (-9 : ℤ) (1/2305843009213693952 : ℚ) (4703919738795936 : ℤ) (146997491837373/72057594037927936 : ℚ)
        (by norm_num) (by norm_num) (by norm_num) (by norm_num)
        (rhe_eval _ (4703919738795935 : ℤ) (4703919738795936 : ℤ)
          (by norm_num [Int.floor_eq_iff]) (by norm_num))
        (by norm_num)
    have hfl10 : fl (198605354838957200458193471577/324518553658426726783156020576256 : ℚ) = (1411175921638781/2305843009213693952 : ℚ) :=
      fl_eval (198605354838957200458193471577/324518553658426726783156020576256 : ℚ) (-11 : ℤ) (1/9223372036854775808 : ℚ) (5644703686555124 : ℤ) (1411175921638781/2305843009213693952 : ℚ)
        (by norm_num) (by norm_num) (by norm_num) (by norm_num)
        (rhe_eval _ (5644703686555124 : ℤ) (5644703686555124 : ℤ)
          (by norm_num [Int.floor_eq_iff]) (by norm_num))
        (by norm_num)
    have hfl11 : fl (5/4 : ℚ) = (5/4 : ℚ) :=
      fl_eval (5/4 : ℚ) (0 : ℤ) (1/4503599627370496 : ℚ) (5629499534213120 : ℤ) (5/4 : ℚ)
        (by norm_num) (by norm_num) (by norm_num) (by norm_num)
        (rhe_eval _ (5629499534213120 : ℤ) (5629499534213120 : ℤ)
          (by norm_num [Int.floor_eq_iff]) (by norm_num))
        (by norm_num)
    have hfl12 : fl (15/4 : ℚ) = (15/4 : ℚ) :=
      fl_eval (15/4 : ℚ) (1 : ℤ) (1/2251799813685248 : ℚ) (8444249301319680 : ℤ) (15/4 : ℚ)
        (by norm_num) (by norm_num) (by norm_num) (by norm_num)
        (rhe_eval _ (8444249301319680 : ℤ) (8444249301319680 : ℤ)
          (by norm_num [Int.floor_eq_iff]) (by norm_num))
        (by norm_num)
    have hfl13 : fl (17/50000 : ℚ) = (48999163945791/144115188075855872 : ℚ) :=
      fl_eval (17/50000 : ℚ) (-12 : ℤ) (1/18446744073709551616 : ℚ) (6271892985061248 : ℤ) (48999163945791/144115188075855872 : ℚ)
        (by norm_num) (by norm_num) (by norm_num) (by norm_num)
        (rhe_eval _ (6271892985061247 : ℤ) (6271892985061248 : ℤ)
          (by norm_num [Int.floor_eq_iff]) (by norm_num))
        (by norm_num)
    have hfl14 : fl (734987459186865/576460752303423488 : ℚ) = (734987459186865/576460752303423488 : ℚ) :=
      fl_eval (734987459186865/576460752303423488 : ℚ) (-10 : ℤ) (1/4611686018427387904 : ℚ) (5879899673494920 : ℤ) (734987459186865/576460752303423488 : ℚ)
        (by norm_num) (by norm_num) (by norm_num) (by norm_num)
        (rhe_eval _ (5879899673494920 : ℤ) (5879899673494920 : ℤ)
          (by norm_num [Int.floor_eq_iff]) (by norm_num))
        (by norm_num)
    have hfl15 : fl (882849642152693/288230376151711744 : ℚ) = (882849642152693/288230376151711744 : ℚ) :=
      fl_eval (882849642152693/288230376151711744 : ℚ) (-9 : ℤ) (1/2305843009213693952 : ℚ) (7062797137221544 : ℤ) (882849642152693/288230376151711744 : ℚ)
        (by norm_num) (by norm_num) (by norm_num) (by norm_num)
        (rhe_eval _ (7062797137221544 : ℤ) (7062797137221544 : ℤ)
          (by norm_num [Int.floor_eq_iff]) (by norm_num))
        (by norm_num)
    have hfl16 : fl (8473973058860325/2305843009213693952 : ℚ) = (8473973058860325/2305843009213693952 : ℚ) :=
      fl_eval (8473973058860325/2305843009213693952 : ℚ) (-9 : ℤ) (1/2305843009213693952 : ℚ) (8473973058860325 : ℤ) (8473973058860325/2305843009213693952 : ℚ)
        (by norm_num) (by norm_num) (by norm_num) (by norm_num)
        (rhe_eval _ (8473973058860325 : ℤ) (8473973058860325 : ℤ)
          (by norm_num [Int.floor_eq_iff]) (by norm_num))
        (by norm_num)
    have hfl17 : fl (11413922895607785/2305843009213693952 : ℚ) = (1426740361950973/288230376151711744 : ℚ) :=
      fl_eval (11413922895607785/2305843009213693952 : ℚ) (-8 : ℤ) (1/1152921504606846976 : ℚ) (5706961447803892 : ℤ) (1426740361950973/288230376151711744 : ℚ)
        (by norm_num) (by norm_num) (by norm_num) (by norm_num)
        (rhe_eval _ (5706961447803892 : ℤ) (5706961447803892 : ℤ)
          (by norm_num [Int.floor_eq_iff]) (by norm_num))
        (by norm_num)
    have hfl18 : fl (49/10000 : ℚ) = (2824657686286775/576460752303423488 : ℚ) :=
      fl_eval (49/10000 : ℚ) (-8 : ℤ) (1/1152921504606846976 : ℚ) (5649315372573550 : ℤ) (2824657686286775/576460752303423488 : ℚ)
        (by norm_num) (by norm_num) (by norm_num) (by norm_num)
        (rhe_eval _ (5649315372573550 : ℤ) (5649315372573550 : ℤ)
          (by norm_num [Int.floor_eq_iff]) (by norm_num))
        (by norm_num)
    have hrnd : round_half_even (891712726219358125/18014398509481984 : ℚ) = (49 : ℤ) :=
      rhe_eval _ (49 : ℤ) (49 : ℤ)
        (by norm_num [Int.floor_eq_iff]) (by norm_num)
    have hfa1 : ⌊(4487326855279411/2199023255552 : ℚ)⌋ = (2040 : ℤ) := by
      norm_num [Int.floor_eq_iff]
    have hfa2 : ⌊(2991551236852941/8796093022208 : ℚ)⌋ = (340 : ℤ) := by
      norm_num [Int.floor_eq_iff]
    refine ⟨?_, ?_, ?_⟩
    · have hpr : MODEL_PRICING "sonnet" = ⟨3, 15⟩ := rfl
      unfold calculate_costs_day get_cache_rates pyRound4
      rw [hpr]
      have htn1 : Int.toNat (2040 : ℤ) = 2040 := rfl
      have htn2 : Int.toNat (340 : ℤ) = 340 := rfl
      norm_num [C5rec, htn1, htn2, hfl1, hfl2, hfl3, hfl4, hfl5, hfl6, hfl7, hfl0, hfl8, hfl9, hfl10, hfl11, hfl12, hfl13, hfl14, hfl15, hfl16, hfl17, hfl18, hrnd, hfa1, hfa2]
    · have h1 : ⌊(3401 : ℚ) * 0.6⌋ = (2040 : ℤ) := by
        norm_num [Int.floor_eq_iff]
      have h2 : ⌊(3401 : ℚ) * 0.1⌋ = (340 : ℤ) := by
        norm_num [Int.floor_eq_iff]
      have h3 : round_half_even ((99/2 : ℚ)) = (50 : ℤ) :=
        rhe_eval _ (49 : ℤ) (50 : ℤ)
          (by norm_num [Int.floor_eq_iff]) (by norm_num)
      unfold cost_claimed
      have htn1 : Int.toNat (2040 : ℤ) = 2040 := rfl
      have htn2 : Int.toNat (340 : ℤ) = 340 := rfl
      norm_num [htn1, htn2, h1, h2, h3]
    · rw [hfl18]
      norm_num

/-- **C5 (amended)**: for every date record the cost estimator realizes
the claimed formula with every arithmetic step performed in IEEE-754
double precision: the 60/10 percent cache split of the input tokens
(floored doubles), the Sonnet rates 3 and 15 with derived cache rates,
the left-associated four-term per-million cost, rounded to four decimal
places as Python `round` does on the computed double. -/
theorem C5_calculate_costs_float (s : DayStats) :
    (calculate_costs_day s).cost =
        (cost_claimed_float s.input_tokens s.output_tokens).1 ∧
    (calculate_costs_day s).cache_read_tokens =
        (cost_claimed_float s.input_tokens s.output_tokens).2.1 ∧
    (calculate_costs_day s).cache_write_tokens =
        (cost_claimed_float s.input_tokens s.output_tokens).2.2 := by
  have hp : MODEL_PRICING "sonnet" = ⟨3, 15⟩ := rfl
  refine ⟨?_, rfl, rfl⟩
  show pyRound4 _ = pyRound4 _
  rw [hp]
  norm_num [get_cache_rates]

/-- The spec wording for the politeness score applied to the very double
the program computes: Python `round` of that double is round-half-to-even
of its exact value, before the cap at 100. -/
def politeness_score_rounded (l : List (String × DayStats)) : Nat :=
  min 100 (Int.toNat (round_half_even
    (fl (fl ((total_please_count l + total_thanks_count l : ℚ)
        / (max (total_human_messages l) 1 : ℚ)) * 100))))

/-- A one-date table on which truncation and rounding disagree: two
polite substrings over three human messages give the percentage
66.666… . -/
def C6ex : List (String × DayStats) :=
  [("2025-01-01", { please_count := 2, human_messages := 3 })]

/-- A one-date table on which the double drifts below the exact value: 29
polite substrings over 50 human messages give exactly 58 percent, but the
double evaluation yields 57.99999999999999…, which `int()` truncates to
57. -/
def C6ex2950 : List (String × DayStats) :=
  [("2025-01-01", { please_count := 29, human_messages := 50 })]

/-- **C6 (counterexample)**: on `C6ex` the source computes the politeness
score 66 (truncation of the double 66.66666666666667), while the claimed
round-to-nearest reading of the same percentage yields 67, refuting the
claim as stated. -/
theorem C6_counterexample :
    politeness_score C6ex = 66 ∧ politeness_score_claimed C6ex = 67 := by
  have hp : total_please_count C6ex = 2 := by decide
  have ht : total_thanks_count C6ex = 0 := by decide
  have hh : total_human_messages C6ex = 3 := by decide
  constructor
  · have hfl1 : fl (2/3 : ℚ) = (6004799503160661/9007199254740992 : ℚ) :=
      fl_eval (2/3 : ℚ) (-1 : ℤ) (1/9007199254740992 : ℚ) (6004799503160661 : ℤ) (6004799503160661/9007199254740992 : ℚ)
        (by norm_num) (by norm_num) (by norm_num) (by norm_num)
        (rhe_eval _ (6004799503160661 : ℤ) (6004799503160661 : ℤ)
          (by norm_num [Int.floor_eq_iff]) (by norm_num))
        (by norm_num)
    have hfl2 : fl (150119987579016525/2251799813685248 : ℚ) = (2345624805922133/35184372088832 : ℚ) :=
      fl_eval (150119987579016525/2251799813685248 : ℚ) (6 : ℤ) (1/70368744177664 : ℚ) (4691249611844266 : ℤ) (2345624805922133/35184372088832 : ℚ)
        (by norm_num) (by norm_num) (by norm_num) (by norm_num)
        (rhe_eval _ (4691249611844266 : ℤ) (4691249611844266 : ℤ)
          (by norm_num [Int.floor_eq_iff]) (by norm_num))
        (by norm_num)
    have hfy : ⌊(2345624805922133/35184372088832 : ℚ)⌋ = (66 : ℤ) := by
      norm_num [Int.floor_eq_iff]
    unfold politeness_score
    rw [hp, ht, hh]
    have htn : Int.toNat (66 : ℤ) = 66 := rfl
    norm_num [hfl1, hfl2, htn, hfy]
  · unfold politeness_score_claimed
    rw [hp, ht, hh]
    have hx : (((2 : ℕ) : ℚ) + ((0 : ℕ) : ℚ))
        / (max ((3 : ℕ) : ℚ) 1) * 100 = 200/3 := by
      norm_num
    rw [hx]
    have hf : ⌊(200 : ℚ)/3⌋ = 66 := by
      norm_num [Int.floor_eq_iff]
    unfold round_half_even
    rw [hf]
    norm_num
    decide

/-- **C6 (amended)**: the percentage is computed in double precision and
then truncated (Python `int`), never rounded: the score never exceeds
what rounding the same computed double to nearest would give; moreover
the double evaluation genuinely drifts, so the score can even fall below
the exact-arithmetic floor: at 29 polite substrings over 50 human
messages the program scores 57 although the exact percentage is
exactly 58. -/
theorem C6_politeness_truncation :
    (∀ l : List (String × DayStats),
        politeness_score l ≤ politeness_score_rounded l) ∧
    politeness_score C6ex2950 = 57 ∧
    (total_please_count C6ex2950 + total_thanks_count C6ex2950) * 100
        / max (total_human_messages C6ex2950) 1 = 58 := by
  refine ⟨?_, ?_, by decide⟩
  · intro l
    unfold politeness_score politeness_score_rounded
    exact min_le_min (le_refl 100)
      (Int.toNat_le_toNat (floor_le_rhe _))
  · have hp : total_please_count C6ex2950 = 29 := by decide
    have ht : total_thanks_count C6ex2950 = 0 := by decide
    have hh : total_human_messages C6ex2950 = 50 := by decide
    have hfl1 : fl (29/50 : ℚ) = (5224175567749775/9007199254740992 : ℚ) :=
      fl_eval (29/50 : ℚ) (-1 : ℤ) (1/9007199254740992 : ℚ) (5224175567749775 : ℤ) (5224175567749775/9007199254740992 : ℚ)
        (by norm_num) (by norm_num) (by norm_num) (by norm_num)
        (rhe_eval _ (5224175567749775 : ℤ) (5224175567749775 : ℤ)
          (by norm_num [Int.floor_eq_iff]) (by norm_num))
        (by norm_num)
    have hfl2 : fl (130604389193744375/2251799813685248 : ℚ) = (8162774324609023/140737488355328 : ℚ) :=
      fl_eval (130604389193744375/2251799813685248 : ℚ) (5 : ℤ) (1/140737488355328 : ℚ) (8162774324609023 : ℤ) (8162774324609023/140737488355328 : ℚ)
        (by norm_num) (by norm_num) (by norm_num) (by norm_num)
        (rhe_eval _ (8162774324609023 : ℤ) (8162774324609023 : ℤ)
          (by norm_num [Int.floor_eq_iff]) (by norm_num))
        (by norm_num)
    have hfy : ⌊(8162774324609023/140737488355328 : ℚ)⌋ = (57 : ℤ) := by
      norm_num [Int.floor_eq_iff]
    unfold politeness_score
    rw [hp, ht, hh]
    have htn : Int.toNat (57 : ℤ) = 57 := rfl
    norm_num [hfl1, hfl2, htn, hfy]

/-- The content-block dispatch never touches the message, sender, session,
active-time or hour counters. -/
theorem contentUpdate_preserves (ctx : Ctx) (sender : String)
    (c : ContentBlock) (s : DayStats) :
    (contentUpdate ctx sender c s).messages = s.messages ∧
    (contentUpdate ctx sender c s).human_messages = s.human_messages ∧
    (contentUpdate ctx sender c s).assistant_messages
      = s.assistant_messages ∧
    (contentUpdate ctx sender c s).sessions = s.sessions ∧
    (contentUpdate ctx sender c s).user_active_time_ms
      = s.user_active_time_ms ∧
    (contentUpdate ctx sender c s).hours = s.hours := by
  unfold contentUpdate addPersonality
  repeat' split
  all_goals simp

/-- Folding a whole content list keeps the same counters untouched. -/
theorem contentFold_preserves (ctx : Ctx) (sender : String)
    (cs : List ContentBlock) (s : DayStats) :
    ((cs.foldl (fun s c => contentUpdate ctx sender c s) s).messages
      = s.messages) ∧
    ((cs.foldl (fun s c => contentUpdate ctx sender c s) s).human_messages
      = s.human_messages) ∧
    ((cs.foldl (fun s c => contentUpdate ctx sender c s) s).assistant_messages
      = s.assistant_messages) ∧
    ((cs.foldl (fun s c => contentUpdate ctx sender c s) s).sessions
      = s.sessions) ∧
    ((cs.foldl (fun s c => contentUpdate ctx sender c s) s).user_active_time_ms
      = s.user_active_time_ms) ∧
    ((cs.foldl (fun s c => contentUpdate ctx sender c s) s).hours
      = s.hours) := by
  induction cs generalizing s with
  | nil => exact ⟨rfl, rfl, rfl, rfl, rfl, rfl⟩
  | cons c cs ih =>
    simp only [List.foldl_cons]
    obtain ⟨i1, i2, i3, i4, i5, i6⟩ := ih (contentUpdate ctx sender c s)
    obtain ⟨p1, p2, p3, p4, p5, p6⟩ := contentUpdate_preserves ctx sender c s
    exact ⟨i1.trans p1, i2.trans p2, i3.trans p3, i4.trans p4,
           i5.trans p5, i6.trans p6⟩

/-- The claim-side reading of the thinking-span contribution of one
thinking content block: the millisecond difference `stop - start` whenever
both timestamps are given and both parse (whatever its sign), and nothing
otherwise. -/
def thinkingSpanMs (ctx : Ctx) (c : ContentBlock) : ℚ :=
  if c.start_timestamp ≠ "" ∧ c.stop_timestamp ≠ "" then
    match parse_timestamp ctx.fromiso c.start_timestamp,
          parse_timestamp ctx.fromiso c.stop_timestamp with
    | some t1, some t2 => t2.epochMs - t1.epochMs
    | _, _ => 0
  else 0

/-- **C1 (amended)**: a `thinking` content block adds
`floor(len(thinking_text)/4)` to the output-token counter, and adds the
raw span `(stop - start)` in milliseconds to the thinking-time counter
whenever both timestamps parse — including a negative span when `stop` is
earlier than `start`; only a missing or unparsable timestamp contributes
nothing. All other counters of the record are untouched. -/
theorem C1_thinking_block (ctx : Ctx) (sender : String) (c : ContentBlock)
    (s : DayStats) (ht : c.type = "thinking") :
    (contentUpdate ctx sender c s).output_tokens
      = s.output_tokens + c.thinking.length / 4 ∧
    (contentUpdate ctx sender c s).thinking_time_ms
      = s.thinking_time_ms + thinkingSpanMs ctx c ∧
    (contentUpdate ctx sender c s).input_tokens = s.input_tokens ∧
    (contentUpdate ctx sender c s).user_active_time_ms
      = s.user_active_time_ms := by
  have hnt : c.type ≠ "text" := by
    rw [ht]
    decide
  unfold contentUpdate thinkingSpanMs
  rw [if_neg hnt, if_pos ht]
  split
  · split
    · simp [estimate_tokens, CHARS_PER_TOKEN]
    · simp [estimate_tokens, CHARS_PER_TOKEN]
  · simp [estimate_tokens, CHARS_PER_TOKEN]

/-- The library context used by the concrete **C1** refutation: a parser
recognizing two instants 1000 milliseconds apart. -/
def C1ctx : Ctx :=
  { fromiso := fun s =>
      if s = "sA" then some ⟨1000, 0, "2025-01-01"⟩
      else if s = "sB" then some ⟨0, 0, "2025-01-01"⟩
      else none
    re_count := fun _ _ => 0
    code_findall := fun _ => [] }

/-- A thinking block whose stop instant is 1000 milliseconds *before* its
start instant. -/
def C1block : ContentBlock :=
  { type := "thinking", start_timestamp := "sA", stop_timestamp := "sB" }

/-- **C1 (counterexample)**: on a thinking block with a negative span the
aggregator adds the negative value to the thinking-time counter — the
counter changes (decreases by 1000), while the claim says such a span
contributes nothing. -/
theorem C1_counterexample :
    (contentUpdate C1ctx "assistant" C1block {}).thinking_time_ms = -1000 ∧
    (contentUpdate C1ctx "assistant" C1block {}).thinking_time_ms
      ≠ ({} : DayStats).thinking_time_ms := by
  have h : (contentUpdate C1ctx "assistant" C1block {}).thinking_time_ms
      = (0 : ℚ) + ((0 : ℚ) - 1000) := rfl
  rw [h]
  norm_num

/-- For a human message whose timestamp parses, with a previous
human-message timestamp carried forward, the active-time counter grows by
the millisecond delta exactly when `0 < delta < 1,800,000`, and by nothing
otherwise; the carry-forward timestamp advances to the new instant either
way. The equality covers the whole per-message step, so no other phase of
the message (counters, content blocks) compensates. -/
theorem active_time_step (ctx : Ctx) (s : DayStats) (p dt : DT)
    (msg : Message) (hs : msg.sender = "human")
    (hp : parse_timestamp ctx.fromiso msg.created_at = some dt) :
    ((processMessageDay ctx (s, some p) msg).1.user_active_time_ms
      = s.user_active_time_ms +
        (if 0 < dt.epochMs - p.epochMs ∧ dt.epochMs - p.epochMs < 1800000
         then dt.epochMs - p.epochMs else 0)) ∧
    (processMessageDay ctx (s, some p) msg).2 = some dt := by
  have hne : msg.created_at ≠ "" := by
    intro h
    rw [h] at hp
    simp [parse_timestamp] at hp
  simp only [processMessageDay, msgTimeStep, ne_eq, hne, not_false_iff,
    if_true, hp, hs, reduceIte]
  have hiff : ((0 : ℚ) < dt.epochMs - p.epochMs ∧
        dt.epochMs - p.epochMs < 1800000) ↔
      (0 < dt.epochMs - p.epochMs ∧
        dt.epochMs - p.epochMs < 30 * 60 * 1000) := by
    norm_num
  rw [if_congr hiff rfl rfl]
  split_ifs with hd
  · refine ⟨?_, trivial⟩
    rw [(contentFold_preserves ctx "human" msg.content _).2.2.2.2.1]
  · refine ⟨?_, trivial⟩
    rw [(contentFold_preserves ctx "human" msg.content _).2.2.2.2.1]
    simp

/-- The library context of the concrete **C3** examples: instants at 0,
600,000 (ten minutes) and 1,860,000 (thirty-one minutes) milliseconds. -/
def C3ctx : Ctx :=
  { fromiso := fun s =>
      if s = "t0" then some ⟨0, 9, "2025-01-01"⟩
      else if s = "t600" then some ⟨600000, 9, "2025-01-01"⟩
      else if s = "t1860" then some ⟨1860000, 9, "2025-01-01"⟩
      else none
    re_count := fun _ _ => 0
    code_findall := fun _ => [] }

/-- **C3**: the delta between consecutive human messages is added to the
active-time counter iff `0 < delta < 1,800,000` milliseconds; in
particular messages ten minutes apart contribute 600,000 ms, messages
thirty-one minutes apart contribute 0, and an out-of-order second
timestamp contributes 0. -/
theorem C3_active_time :
    (∀ (ctx : Ctx) (s : DayStats) (p dt : DT) (msg : Message),
      msg.sender = "human" →
      parse_timestamp ctx.fromiso msg.created_at = some dt →
      ((processMessageDay ctx (s, some p) msg).1.user_active_time_ms
        = s.user_active_time_ms +
          (if 0 < dt.epochMs - p.epochMs ∧ dt.epochMs - p.epochMs < 1800000
           then dt.epochMs - p.epochMs else 0)) ∧
      (processMessageDay ctx (s, some p) msg).2 = some dt) ∧
    ((processMessageDay C3ctx ({}, some ⟨0, 9, "2025-01-01"⟩)
        { sender := "human", created_at := "t600" }).1.user_active_time_ms
      = 600000) ∧
    ((processMessageDay C3ctx ({}, some ⟨0, 9, "2025-01-01"⟩)
        { sender := "human", created_at := "t1860" }).1.user_active_time_ms
      = 0) ∧
    ((processMessageDay C3ctx ({}, some ⟨600000, 9, "2025-01-01"⟩)
        { sender := "human", created_at := "t0" }).1.user_active_time_ms
      = 0) := by
  refine ⟨active_time_step, ?_, ?_, ?_⟩
  · rw [(active_time_step C3ctx {} ⟨0, 9, "2025-01-01"⟩
      ⟨600000, 9, "2025-01-01"⟩
      { sender := "human", created_at := "t600" } rfl rfl).1]
    norm_num
  · rw [(active_time_step C3ctx {} ⟨0, 9, "2025-01-01"⟩
      ⟨1860000, 9, "2025-01-01"⟩
      { sender := "human", created_at := "t1860" } rfl rfl).1]
    norm_num
  · rw [(active_time_step C3ctx {} ⟨600000, 9, "2025-01-01"⟩
      ⟨0, 9, "2025-01-01"⟩
      { sender := "human", created_at := "t0" } rfl rfl).1]
    norm_num

/-- Witness for **C3**: the carry-forward timestamp advances on the
concrete ten-minute pair, by the theorem applied at that input. -/
theorem C3_active_time_witness :
    (processMessageDay C3ctx ({}, some ⟨0, 9, "2025-01-01"⟩)
        { sender := "human", created_at := "t600" }).2
      = some ⟨600000, 9, "2025-01-01"⟩ :=
  (C3_active_time.1 C3ctx {} ⟨0, 9, "2025-01-01"⟩
    ⟨600000, 9, "2025-01-01"⟩
    { sender := "human", created_at := "t600" } rfl rfl).2

/-- **C8**: timestamp handling never propagates a failure: the empty
timestamp parses to nothing for every choice of the library parser; when a
message timestamp yields nothing, the whole timestamp phase of that
message (hour tally, active-time delta, carry-forward update) is the
identity; and a content block whose type is none of
`text`/`thinking`/`tool_use`/`tool_result` leaves the date record exactly
unchanged. -/
theorem C8_error_handling :
    (∀ fromiso : String → Option DT, parse_timestamp fromiso "" = none) ∧
    (∀ (ctx : Ctx) (st : DayStats × Option DT) (msg : Message),
      parse_timestamp ctx.fromiso msg.created_at = none →
      msgTimeStep ctx st msg = st) ∧
    (∀ (ctx : Ctx) (sender : String) (c : ContentBlock) (s : DayStats),
      c.type ≠ "text" → c.type ≠ "thinking" → c.type ≠ "tool_use" →
      c.type ≠ "tool_result" → contentUpdate ctx sender c s = s) := by
  refine ⟨?_, ?_, ?_⟩
  · intro fromiso
    simp [parse_timestamp]
  · intro ctx st msg hnone
    unfold msgTimeStep
    by_cases h : msg.created_at = ""
    · rw [if_neg]
      simp [h]
    · rw [if_pos h, hnone]
  · intro ctx sender c s h1 h2 h3 h4
    unfold contentUpdate
    rw [if_neg h1, if_neg h2, if_neg h3, if_neg h4]

/-- Witness for **C8**: a block of the unrecognized type `citation`
contributes nothing, and a message whose timestamp string the parser
rejects leaves the timestamp phase unchanged, at concrete inputs. -/
theorem C8_error_handling_witness :
    contentUpdate C1ctx "assistant" { type := "citation" } {} = {} ∧
    msgTimeStep C1ctx ({}, none)
      { sender := "human", created_at := "garbage" } = ({}, none) :=
  ⟨C8_error_handling.2.2 C1ctx "assistant" { type := "citation" } {}
      (by decide) (by decide) (by decide) (by decide),
   C8_error_handling.2.1 C1ctx ({}, none)
      { sender := "human", created_at := "garbage" } rfl⟩

/-- The timestamp phase never touches the message or sender counters. -/
theorem msgTimeStep_preserves (ctx : Ctx) (st : DayStats × Option DT)
    (msg : Message) :
    (msgTimeStep ctx st msg).1.messages = st.1.messages ∧
    (msgTimeStep ctx st msg).1.human_messages = st.1.human_messages ∧
    (msgTimeStep ctx st msg).1.assistant_messages
      = st.1.assistant_messages := by
  unfold msgTimeStep
  repeat' split
  all_goals simp [apply_ite]

/-- Per-message counting: every message increments the message counter;
the two recognized senders increment exactly their own counter. -/
theorem processMessageDay_counts (ctx : Ctx) (st : DayStats × Option DT)
    (msg : Message) :
    (processMessageDay ctx st msg).1.messages = st.1.messages + 1 ∧
    (processMessageDay ctx st msg).1.human_messages
      = st.1.human_messages + (if msg.sender = "human" then 1 else 0) ∧
    (processMessageDay ctx st msg).1.assistant_messages
      = st.1.assistant_messages
        + (if msg.sender = "assistant" then 1 else 0) := by
  obtain ⟨t1, t2, t3⟩ := msgTimeStep_preserves ctx st msg
  unfold processMessageDay
  obtain ⟨f1, f2, f3, -, -, -⟩ :=
    contentFold_preserves ctx msg.sender msg.content
      (if msg.sender = "human" then
        { { (msgTimeStep ctx st msg).1 with
              messages := (msgTimeStep ctx st msg).1.messages + 1 } with
            human_messages :=
              { (msgTimeStep ctx st msg).1 with
                  messages := (msgTimeStep ctx st msg).1.messages + 1
                }.human_messages + 1 }
       else if msg.sender = "assistant" then
        { { (msgTimeStep ctx st msg).1 with
              messages := (msgTimeStep ctx st msg).1.messages + 1 } with
            assistant_messages :=
              { (msgTimeStep ctx st msg).1 with
                  messages := (msgTimeStep ctx st msg).1.messages + 1
                }.assistant_messages + 1 }
       else
        { (msgTimeStep ctx st msg).1 with
            messages := (msgTimeStep ctx st msg).1.messages + 1 })
  refine ⟨?_, ?_, ?_⟩
  all_goals split_ifs with h1 h2
  all_goals simp_all

/-- Counting over a message list: messages grow by the list length, the
sender counters by the occurrence counts of their sender. -/
theorem msgsFold_counts (ctx : Ctx) (msgs : List Message) :
    ∀ st : DayStats × Option DT,
    ((msgs.foldl (processMessageDay ctx) st).1.messages
      = st.1.messages + msgs.length) ∧
    ((msgs.foldl (processMessageDay ctx) st).1.human_messages
      = st.1.human_messages
        + (msgs.filter (fun m => m.sender = "human")).length) ∧
    ((msgs.foldl (processMessageDay ctx) st).1.assistant_messages
      = st.1.assistant_messages
        + (msgs.filter (fun m => m.sender = "assistant")).length) := by
  induction msgs with
  | nil => intro st; simp
  | cons msg t ih =>
    intro st
    obtain ⟨i1, i2, i3⟩ := ih (processMessageDay ctx st msg)
    obtain ⟨c1, c2, c3⟩ := processMessageDay_counts ctx st msg
    simp only [List.foldl_cons, List.filter_cons, List.length_cons]
    refine ⟨?_, ?_, ?_⟩
    · rw [i1, c1]
      omega
    · rw [i2, c2]
      by_cases h : msg.sender = "human"
      · simp [h]
        omega
      · simp [h]
    · rw [i3, c3]
      by_cases h : msg.sender = "assistant"
      · simp [h]
        omega
      · simp [h]

/-- Counting over one conversation: the session increment leaves the
message counters alone, so the conversation contributes its message-list
counts. -/
theorem processConversationDay_counts (ctx : Ctx) (conv : Conversation)
    (s : DayStats) :
    ((processConversationDay ctx conv s).messages
      = s.messages + conv.chat_messages.length) ∧
    ((processConversationDay ctx conv s).human_messages
      = s.human_messages
        + (conv.chat_messages.filter (fun m => m.sender = "human")).length) ∧
    ((processConversationDay ctx conv s).assistant_messages
      = s.assistant_messages
        + (conv.chat_messages.filter
            (fun m => m.sender = "assistant")).length) := by
  unfold processConversationDay
  obtain ⟨f1, f2, f3⟩ := msgsFold_counts ctx conv.chat_messages
    ({ s with sessions := s.sessions + 1 }, none)
  exact ⟨f1, f2, f3⟩

/-- The per-date contribution of the conversations bucketed under `d`:
the sum of `f` over the conversations whose date is `d`. -/
def dateTotal (ctx : Ctx) (convs : List Conversation)
    (f : Conversation → Nat) (d : String) : Nat :=
  ((convs.filter (fun conv => convDate ctx conv = some d)).map f).sum

/-- Counting through one conversation of the outer fold, at every date. -/
theorem processConversation_counts (ctx : Ctx) (m : DayMap)
    (conv : Conversation) (d : String) :
    ((processConversation ctx m conv d).messages
      = (m d).messages
        + (if convDate ctx conv = some d
           then conv.chat_messages.length else 0)) ∧
    ((processConversation ctx m conv d).human_messages
      = (m d).human_messages
        + (if convDate ctx conv = some d
           then (conv.chat_messages.filter
              (fun m => m.sender = "human")).length else 0)) ∧
    ((processConversation ctx m conv d).assistant_messages
      = (m d).assistant_messages
        + (if convDate ctx conv = some d
           then (conv.chat_messages.filter
              (fun m => m.sender = "assistant")).length else 0)) := by
  unfold processConversation
  cases hcd : convDate ctx conv with
  | none => simp [hcd]
  | some d2 =>
    by_cases hd : d = d2
    · subst hd
      obtain ⟨c1, c2, c3⟩ := processConversationDay_counts ctx conv (m d)
      simp [upd, c1, c2, c3]
    · have : ¬ (some d2 = some d) := by
        simp
        intro h
        exact hd h.symm
      simp [upd, hd, this]

/-- Counting through the whole aggregation pass, at every date. -/
theorem agg_counts (ctx : Ctx) (convs : List Conversation) :
    ∀ (m : DayMap) (d : String),
    ((convs.foldl (processConversation ctx) m d).messages
      = (m d).messages
        + dateTotal ctx convs (fun c => c.chat_messages.length) d) ∧
    ((convs.foldl (processConversation ctx) m d).human_messages
      = (m d).human_messages
        + dateTotal ctx convs
            (fun c => (c.chat_messages.filter
              (fun m => m.sender = "human")).length) d) ∧
    ((convs.foldl (processConversation ctx) m d).assistant_messages
      = (m d).assistant_messages
        + dateTotal ctx convs
            (fun c => (c.chat_messages.filter
              (fun m => m.sender = "assistant")).length) d) := by
  induction convs with
  | nil => intro m d; simp [dateTotal]
  | cons conv t ih =>
    intro m d
    obtain ⟨i1, i2, i3⟩ := ih (processConversation ctx m conv) d
    obtain ⟨c1, c2, c3⟩ := processConversation_counts ctx m conv d
    simp only [List.foldl_cons]
    have hsum : ∀ (f : Conversation → Nat),
        dateTotal ctx (conv :: t) f d
          = (if convDate ctx conv = some d then f conv else 0)
            + dateTotal ctx t f d := by
      intro f
      unfold dateTotal
      by_cases h : convDate ctx conv = some d
      · simp [List.filter_cons, h]
      · simp [List.filter_cons, h]
    rw [i1, i2, i3, c1, c2, c3, hsum, hsum, hsum]
    omega

/-- Splitting a message list into human, assistant and other senders. -/
theorem length_sender_partition (l : List Message) :
    l.length
      = (l.filter (fun m => m.sender = "human")).length
        + (l.filter (fun m => m.sender = "assistant")).length
        + (l.filter (fun m =>
            m.sender ≠ "human" ∧ m.sender ≠ "assistant")).length := by
  induction l with
  | nil => rfl
  | cons m t ih =>
    by_cases h1 : m.sender = "human"
    · simp [List.filter_cons, h1, ih]
      omega
    · by_cases h2 : m.sender = "assistant"
      · simp [List.filter_cons, h1, h2, ih]
        omega
      · simp [List.filter_cons, h1, h2, ih]
        omega

/-- Summing a pointwise sum of contributions splits. -/
theorem sum_map_add {α : Type} (l : List α) (f g : α → Nat) :
    (l.map (fun x => f x + g x)).sum = (l.map f).sum + (l.map g).sum := by
  induction l with
  | nil => rfl
  | cons x t ih =>
    simp only [List.map_cons, List.sum_cons, ih]
    omega

/-- **C10**: per date, the message counter equals human plus assistant
messages plus the number of messages of that date with any other sender
(so it is never below the two sender counters, strictly above exactly when
such a message exists); and a text block of a non-human sender feeds the
output-token counter and the code-block statistics while leaving the
input-token counter and the personality counters untouched. -/
theorem C10_message_counters :
    (∀ (ctx : Ctx) (convs : List Conversation) (d : String),
      (process_conversations ctx convs d).messages
        = (process_conversations ctx convs d).human_messages
          + (process_conversations ctx convs d).assistant_messages
          + dateTotal ctx convs
              (fun c => (c.chat_messages.filter (fun m =>
                m.sender ≠ "human" ∧ m.sender ≠ "assistant")).length) d) ∧
    (∀ (ctx : Ctx) (convs : List Conversation) (d : String),
      (process_conversations ctx convs d).human_messages
        + (process_conversations ctx convs d).assistant_messages
        ≤ (process_conversations ctx convs d).messages) ∧
    (∀ (ctx : Ctx) (sender : String) (c : ContentBlock) (s : DayStats),
      sender ≠ "human" → c.type = "text" →
      (contentUpdate ctx sender c s).output_tokens
        = s.output_tokens + estimate_tokens c.text ∧
      (contentUpdate ctx sender c s).code_blocks
        = s.code_blocks
          + (count_code_blocks ctx.code_findall c.text).code_blocks ∧
      (contentUpdate ctx sender c s).lines_of_code
        = s.lines_of_code
          + (count_code_blocks ctx.code_findall c.text).lines_of_code ∧
      (contentUpdate ctx sender c s).languages
        = addLangs s.languages
            (count_code_blocks ctx.code_findall c.text).languages ∧
      (contentUpdate ctx sender c s).input_tokens = s.input_tokens ∧
      (contentUpdate ctx sender c s).please_count = s.please_count ∧
      (contentUpdate ctx sender c s).thanks_count = s.thanks_count ∧
      (contentUpdate ctx sender c s).caps_rage = s.caps_rage ∧
      (contentUpdate ctx sender c s).curse_words = s.curse_words ∧
      (contentUpdate ctx sender c s).word_count = s.word_count) := by
  have key : ∀ (ctx : Ctx) (convs : List Conversation) (d : String),
      (process_conversations ctx convs d).messages
        = (process_conversations ctx convs d).human_messages
          + (process_conversations ctx convs d).assistant_messages
          + dateTotal ctx convs
              (fun c => (c.chat_messages.filter (fun m =>
                m.sender ≠ "human" ∧ m.sender ≠ "assistant")).length) d := by
    intro ctx convs d
    obtain ⟨a1, a2, a3⟩ := agg_counts ctx convs (fun _ => {}) d
    unfold process_conversations
    rw [a1, a2, a3]
    have hfun : (fun (c : Conversation) => c.chat_messages.length)
        = fun (c : Conversation) =>
            ((c.chat_messages.filter (fun m => m.sender = "human")).length
              + (c.chat_messages.filter
                  (fun m => m.sender = "assistant")).length)
            + (c.chat_messages.filter (fun m =>
                m.sender ≠ "human" ∧ m.sender ≠ "assistant")).length :=
      funext fun c => by
        rw [length_sender_partition c.chat_messages]
    rw [hfun]
    unfold dateTotal
    rw [sum_map_add, sum_map_add]
    simp
  refine ⟨key, fun ctx convs d => ?_, ?_⟩
  · have := key ctx convs d
    omega
  · intro ctx sender c s hsender htype
    unfold contentUpdate
    rw [if_pos htype, if_neg hsender]
    simp

/-- Witness for **C10**: a text block from the sender `system` at a
concrete input adds its token estimate to the output-token counter and
leaves the personality counter untouched. -/
theorem C10_message_counters_witness :
    (contentUpdate C1ctx "system"
        { type := "text", text := "abcdefgh" } {}).output_tokens
      = ({} : DayStats).output_tokens + estimate_tokens "abcdefgh" ∧
    (contentUpdate C1ctx "system"
        { type := "text", text := "abcdefgh" } {}).please_count
      = ({} : DayStats).please_count :=
  ⟨(C10_message_counters.2.2 C1ctx "system"
      { type := "text", text := "abcdefgh" } {} (by decide) rfl).1,
   (C10_message_counters.2.2 C1ctx "system"
      { type := "text", text := "abcdefgh" } {} (by decide) rfl).2.2.2.2.2.1⟩

/-- A thinking block with a positive 1000 millisecond span, for the **C1**
witness. -/
def C1wblock : ContentBlock :=
  { type := "thinking", thinking := "abcd",
    start_timestamp := "sB", stop_timestamp := "sA" }

/-- Witness for **C1 (amended)** at a concrete thinking block. -/
theorem C1_thinking_block_witness :
    (contentUpdate C1ctx "assistant" C1wblock {}).output_tokens
      = ({} : DayStats).output_tokens + ("abcd" : String).length / 4 ∧
    (contentUpdate C1ctx "assistant" C1wblock {}).thinking_time_ms
      = ({} : DayStats).thinking_time_ms + thinkingSpanMs C1ctx C1wblock :=
  ⟨(C1_thinking_block C1ctx "assistant" C1wblock {} rfl).1,
   (C1_thinking_block C1ctx "assistant" C1wblock {} rfl).2.1⟩

/-- The monotonicity order on date records used by the amended **C2**:
every counter except the thinking-time counter is bounded, the keyed
counters (languages, hours) pointwise under the zero-default lookup. -/
def StatsLe (a b : DayStats) : Prop :=
  a.messages ≤ b.messages ∧
  a.human_messages ≤ b.human_messages ∧
  a.assistant_messages ≤ b.assistant_messages ∧
  a.input_tokens ≤ b.input_tokens ∧
  a.output_tokens ≤ b.output_tokens ∧
  a.sessions ≤ b.sessions ∧
  a.user_active_time_ms ≤ b.user_active_time_ms ∧
  a.curse_words ≤ b.curse_words ∧
  a.polite_words ≤ b.polite_words ∧
  a.frustration_words ≤ b.frustration_words ∧
  a.questions ≤ b.questions ∧
  a.exclamations ≤ b.exclamations ∧
  a.please_count ≤ b.please_count ∧
  a.thanks_count ≤ b.thanks_count ∧
  a.caps_rage ≤ b.caps_rage ∧
  a.lol_count ≤ b.lol_count ∧
  a.word_count ≤ b.word_count ∧
  a.request_debugging ≤ b.request_debugging ∧
  a.request_features ≤ b.request_features ∧
  a.request_explain ≤ b.request_explain ∧
  a.request_refactor ≤ b.request_refactor ∧
  a.request_review ≤ b.request_review ∧
  a.request_testing ≤ b.request_testing ∧
  a.sentiment_positive ≤ b.sentiment_positive ∧
  a.sentiment_negative ≤ b.sentiment_negative ∧
  a.sentiment_urgent ≤ b.sentiment_urgent ∧
  a.sentiment_confused ≤ b.sentiment_confused ∧
  a.celebrations ≤ b.celebrations ∧
  a.code_blocks ≤ b.code_blocks ∧
  a.lines_of_code ≤ b.lines_of_code ∧
  a.cost ≤ b.cost ∧
  a.cache_read_tokens ≤ b.cache_read_tokens ∧
  a.cache_write_tokens ≤ b.cache_write_tokens ∧
  (∀ k, lookupD a.languages k ≤ lookupD b.languages k) ∧
  (∀ k, lookupD a.hours k ≤ lookupD b.hours k)

/-- `StatsLe` is reflexive. -/
theorem statsLe_refl (a : DayStats) : StatsLe a a := by
  unfold StatsLe
  repeat' apply And.intro
  all_goals (try intro k)
  all_goals exact le_refl _

/-- `StatsLe` is transitive. -/
theorem statsLe_trans {a b c : DayStats} (h1 : StatsLe a b)
    (h2 : StatsLe b c) : StatsLe a c := by
  obtain ⟨x1, x2, x3, x4, x5, x6, x7, x8, x9, x10, x11, x12, x13, x14, x15, x16, x17, x18, x19, x20, x21, x22, x23, x24, x25, x26, x27, x28, x29, x30, x31, x32, x33, x34, x35⟩ := h1
  obtain ⟨y1, y2, y3, y4, y5, y6, y7, y8, y9, y10, y11, y12, y13, y14, y15, y16, y17, y18, y19, y20, y21, y22, y23, y24, y25, y26, y27, y28, y29, y30, y31, y32, y33, y34, y35⟩ := h2
  exact ⟨x1.trans y1,
    x2.trans y2,
    x3.trans y3,
    x4.trans y4,
    x5.trans y5,
    x6.trans y6,
    x7.trans y7,
    x8.trans y8,
    x9.trans y9,
    x10.trans y10,
    x11.trans y11,
    x12.trans y12,
    x13.trans y13,
    x14.trans y14,
    x15.trans y15,
    x16.trans y16,
    x17.trans y17,
    x18.trans y18,
    x19.trans y19,
    x20.trans y20,
    x21.trans y21,
    x22.trans y22,
    x23.trans y23,
    x24.trans y24,
    x25.trans y25,
    x26.trans y26,
    x27.trans y27,
    x28.trans y28,
    x29.trans y29,
    x30.trans y30,
    x31.trans y31,
    x32.trans y32,
    x33.trans y33,
    fun k => (x34 k).trans (y34 k),
    fun k => (x35 k).trans (y35 k)⟩

/-- A `bump` never lowers any lookup. -/
theorem lookupD_bump_le {α : Type} [DecidableEq α]
    (l : List (α × Nat)) (j : α) (n : Nat) (k : α) :
    lookupD l k ≤ lookupD (bump l j n) k := by
  induction l with
  | nil =>
    unfold bump lookupD
    split
    · simp_all [lookupD]
    · simp [lookupD]
  | cons p t ih =>
    obtain ⟨a, m⟩ := p
    unfold bump
    split
    · rename_i ha
      unfold lookupD
      split
      · exact Nat.le_add_right _ _
      · exact le_refl _
    · unfold lookupD
      split
      · exact le_refl _
      · exact ih

/-- Merging language counts never lowers any lookup. -/
theorem lookupD_addLangs_le (ls : List (String × Nat)) :
    ∀ (base : List (String × Nat)) (k : String),
    lookupD base k ≤ lookupD (addLangs base ls) k := by
  induction ls with
  | nil => intro base k; exact le_refl _
  | cons p t ih =>
    intro base k
    unfold addLangs
    simp only [List.foldl_cons]
    exact (lookupD_bump_le base p.1 p.2 k).trans (ih (bump base p.1 p.2) k)

/-- Adding to the three message counters respects the order. -/
theorem counters_add_le (s : DayStats) (a b c : Nat) :
    StatsLe s { s with
      messages := s.messages + a,
      human_messages := s.human_messages + b,
      assistant_messages := s.assistant_messages + c } := by
  unfold StatsLe
  repeat' apply And.intro
  all_goals (try intro k)
  all_goals (first
    | exact le_refl _
    | exact Nat.le_add_right _ _)

/-- A content block only ever adds to the ordered counters. -/
theorem contentUpdate_le (ctx : Ctx) (sender : String) (c : ContentBlock)
    (s : DayStats) : StatsLe s (contentUpdate ctx sender c s) := by
  unfold contentUpdate
  repeat' split
  all_goals unfold StatsLe
  all_goals (try unfold addPersonality)
  all_goals (repeat' apply And.intro)
  all_goals (try intro k)
  all_goals (first
    | exact le_refl _
    | exact Nat.le_add_right _ _
    | exact lookupD_addLangs_le _ _ _)

/-- Tallying an hour respects the order. -/
theorem hoursBump_le (s : DayStats) (j n : Nat) :
    StatsLe s { s with hours := bump s.hours j n } := by
  unfold StatsLe
  repeat' apply And.intro
  all_goals (try intro k)
  all_goals (first
    | exact le_refl _
    | exact lookupD_bump_le _ _ _ _)

/-- Adding a non-negative delta to the active-time counter respects the
order. -/
theorem active_add_le (s : DayStats) (delta : ℚ) (h : 0 ≤ delta) :
    StatsLe s { s with
      user_active_time_ms := s.user_active_time_ms + delta } := by
  unfold StatsLe
  repeat' apply And.intro
  all_goals (try intro k)
  all_goals (first
    | exact le_refl _
    | exact le_add_of_nonneg_right h)

/-- The timestamp phase only ever adds to the ordered counters. -/
theorem msgTimeStep_le (ctx : Ctx) (st : DayStats × Option DT)
    (msg : Message) : StatsLe st.1 (msgTimeStep ctx st msg).1 := by
  unfold msgTimeStep
  split
  · split
    · rename_i dt hp
      by_cases hs : msg.sender = "human"
      · simp only [hs, reduceIte]
        cases hprev : st.2 with
        | none => exact hoursBump_le st.1 dt.hour 1
        | some p =>
          dsimp only
          by_cases hd : (0 : ℚ) < dt.epochMs - p.epochMs ∧
              dt.epochMs - p.epochMs < 30 * 60 * 1000
          · rw [if_pos hd]
            exact statsLe_trans (hoursBump_le st.1 dt.hour 1)
              (active_add_le _ _ (le_of_lt hd.1))
          · rw [if_neg hd]
            exact hoursBump_le st.1 dt.hour 1
      · simp only [hs, reduceIte]
        exact hoursBump_le st.1 dt.hour 1
    · exact statsLe_refl _
  · exact statsLe_refl _

/-- A whole content list only ever adds to the ordered counters. -/
theorem contentFold_le (ctx : Ctx) (sender : String)
    (cs : List ContentBlock) :
    ∀ s : DayStats,
      StatsLe s (cs.foldl (fun s c => contentUpdate ctx sender c s) s) := by
  induction cs with
  | nil => intro s; exact statsLe_refl s
  | cons c t ih =>
    intro s
    simp only [List.foldl_cons]
    exact statsLe_trans (contentUpdate_le ctx sender c s)
      (ih (contentUpdate ctx sender c s))

/-- A whole message only ever adds to the ordered counters. -/
theorem processMessageDay_le (ctx : Ctx) (st : DayStats × Option DT)
    (msg : Message) : StatsLe st.1 (processMessageDay ctx st msg).1 := by
  unfold processMessageDay
  refine statsLe_trans (msgTimeStep_le ctx st msg) ?_
  refine statsLe_trans (counters_add_le (msgTimeStep ctx st msg).1 1 0 0) ?_
  split_ifs with h1 h2
  · refine statsLe_trans (counters_add_le _ 0 1 0) ?_
    exact contentFold_le ctx msg.sender msg.content _
  · refine statsLe_trans (counters_add_le _ 0 0 1) ?_
    exact contentFold_le ctx msg.sender msg.content _
  · exact contentFold_le ctx msg.sender msg.content _

/-- A whole message list only ever adds to the ordered counters. -/
theorem msgsFold_le (ctx : Ctx) (msgs : List Message) :
    ∀ st : DayStats × Option DT,
      StatsLe st.1 ((msgs.foldl (processMessageDay ctx) st).1) := by
  induction msgs with
  | nil => intro st; exact statsLe_refl _
  | cons msg t ih =>
    intro st
    simp only [List.foldl_cons]
    exact statsLe_trans (processMessageDay_le ctx st msg)
      (ih (processMessageDay ctx st msg))

/-- A whole conversation only ever adds to the ordered counters of its
date record. -/
theorem processConversationDay_le (ctx : Ctx) (conv : Conversation)
    (s : DayStats) : StatsLe s (processConversationDay ctx conv s) := by
  unfold processConversationDay
  refine statsLe_trans (counters_add_le s 0 0 0) ?_
  have hsess : StatsLe s { s with sessions := s.sessions + 1 } := by
    unfold StatsLe
    repeat' apply And.intro
    all_goals (try intro k)
    all_goals (first
      | exact le_refl _
      | exact Nat.le_add_right _ _)
  refine statsLe_trans hsess ?_
  exact msgsFold_le ctx conv.chat_messages
    ({ s with sessions := s.sessions + 1 }, none)

/-- One conversation of the outer fold only ever adds, at every date. -/
theorem processConversation_le (ctx : Ctx) (m : DayMap)
    (conv : Conversation) (d : String) :
    StatsLe (m d) (processConversation ctx m conv d) := by
  unfold processConversation
  cases convDate ctx conv with
  | none => exact statsLe_refl _
  | some d2 =>
    dsimp only
    unfold upd
    by_cases hd : d = d2
    · rw [if_pos hd]
      exact processConversationDay_le ctx conv (m d)
    · rw [if_neg hd]
      exact statsLe_refl _

/-- The outer fold only ever adds, at every date. -/
theorem aggFold_le (ctx : Ctx) (convs : List Conversation) :
    ∀ (m : DayMap) (d : String),
      StatsLe (m d) (convs.foldl (processConversation ctx) m d) := by
  induction convs with
  | nil => intro m d; exact statsLe_refl _
  | cons conv t ih =>
    intro m d
    simp only [List.foldl_cons]
    exact statsLe_trans (processConversation_le ctx m conv d)
      (ih (processConversation ctx m conv) d)

/-- **C2 (amended)**: across any prefix split of the conversation list,
every counter of every date record except the thinking-time counter is
non-decreasing (message, sender, token, session, active-time, lexical,
code and keyed hour/language counters alike), and the table the pass
starts from has every date record zero-initialized. -/
theorem C2_monotonic :
    (∀ (ctx : Ctx) (convs1 convs2 : List Conversation) (d : String),
      StatsLe (process_conversations ctx convs1 d)
        (process_conversations ctx (convs1 ++ convs2) d)) ∧
    (∀ (ctx : Ctx) (d : String),
      process_conversations ctx [] d = {}) := by
  constructor
  · intro ctx convs1 convs2 d
    unfold process_conversations
    rw [List.foldl_append]
    exact aggFold_le ctx convs2 (convs1.foldl (processConversation ctx)
      (fun _ => {})) d
  · intro ctx d
    rfl

/-- The library context of the concrete **C2** refutation: a conversation
instant and a reversed thinking span. -/
def C2ctx : Ctx :=
  { fromiso := fun s =>
      if s = "c0" then some ⟨0, 0, "2025-01-01"⟩
      else if s = "s1" then some ⟨1000, 0, "2025-01-01"⟩
      else if s = "s0" then some ⟨0, 0, "2025-01-01"⟩
      else none
    re_count := fun _ _ => 0
    code_findall := fun _ => [] }

/-- A single conversation holding one assistant message with one
reversed-span thinking block. -/
def C2conv : Conversation :=
  { created_at := "c0"
    chat_messages := [
      { sender := "assistant"
        content := [
          { type := "thinking", start_timestamp := "s1",
            stop_timestamp := "s0" }] }] }

/-- **C2 (counterexample)**: processing `C2conv` after the empty prefix
*decreases* the thinking-time counter of its date record (from 0 to
-1000), so not every counter is monotonically non-decreasing during the
pass. -/
theorem C2_counterexample :
    (process_conversations C2ctx [C2conv] "2025-01-01").thinking_time_ms
      < (process_conversations C2ctx [] "2025-01-01").thinking_time_ms := by
  have h1 : (process_conversations C2ctx [C2conv] "2025-01-01").thinking_time_ms
      = (0 : ℚ) + ((0 : ℚ) - 1000) := rfl
  have h2 : (process_conversations C2ctx [] "2025-01-01").thinking_time_ms
      = (0 : ℚ) := rfl
  rw [h1, h2]
  norm_num

/-- `lexLe` is reflexive. -/
theorem lexLe_refl : ∀ l : List Char, lexLe l l = true := by
  intro l
  induction l with
  | nil => rfl
  | cons c t ih =>
    unfold lexLe
    simp [ih]

/-- `lexLe` is total. -/
theorem lexLe_total : ∀ a b : List Char, lexLe a b = true ∨ lexLe b a = true := by
  intro a
  induction a with
  | nil => intro b; left; rfl
  | cons c t ih =>
    intro b
    cases b with
    | nil => right; rfl
    | cons d u =>
      unfold lexLe
      rcases ih u with hu | hu
      all_goals rcases Nat.lt_trichotomy c.toNat d.toNat with h | h | h
      all_goals split_ifs
      all_goals first
        | (left; rfl)
        | (right; rfl)
        | (left; exact hu)
        | (right; exact hu)

/-- `lexLe` is transitive. -/
theorem lexLe_trans : ∀ a b c : List Char,
    lexLe a b = true → lexLe b c = true → lexLe a c = true := by
  intro a
  induction a with
  | nil => intro b c _ _; rfl
  | cons x t ih =>
    intro b c hab hbc
    cases b with
    | nil => simp [lexLe] at hab
    | cons y u =>
      cases c with
      | nil => simp [lexLe] at hbc
      | cons z v =>
        unfold lexLe at hab hbc ⊢
        split_ifs at hab hbc ⊢
        all_goals first
          | rfl
          | exact ih u v hab hbc
          | (exfalso; omega)

/-- `lexLe` is antisymmetric. -/
theorem lexLe_antisymm : ∀ a b : List Char,
    lexLe a b = true → lexLe b a = true → a = b := by
  intro a
  induction a with
  | nil =>
    intro b _ hba
    cases b with
    | nil => rfl
    | cons d u => simp [lexLe] at hba
  | cons c t ih =>
    intro b hab hba
    cases b with
    | nil => simp [lexLe] at hab
    | cons d u =>
      unfold lexLe at hab hba
      split_ifs at hab hba
      all_goals first
        | (exfalso; omega)
        | exact Bool.noConfusion hab
        | exact Bool.noConfusion hba
        | (have hcd : c = d := Char.ext (UInt32.ext (show c.toNat = d.toNat by omega))
           have htu : t = u := ih u hab hba
           rw [hcd, htu])

/-- `strLe` is reflexive. -/
theorem strLe_refl (a : String) : strLe a a = true :=
  lexLe_refl a.data

/-- `strLe` is total. -/
theorem strLe_total (a b : String) : strLe a b = true ∨ strLe b a = true :=
  lexLe_total a.data b.data

/-- `strLe` is transitive. -/
theorem strLe_trans {a b c : String} (h1 : strLe a b = true)
    (h2 : strLe b c = true) : strLe a c = true :=
  lexLe_trans a.data b.data c.data h1 h2

/-- `strLe` is antisymmetric. -/
theorem strLe_antisymm {a b : String} (h1 : strLe a b = true)
    (h2 : strLe b a = true) : a = b := by
  cases a with
  | mk la =>
    cases b with
    | mk lb =>
      have : la = lb := lexLe_antisymm la lb h1 h2
      rw [this]

/-- Only the empty string sorts at or below the empty string. -/
theorem strLe_empty_right {a : String} (h : strLe a "" = true) : a = "" := by
  cases a with
  | mk la =>
    cases la with
    | nil => rfl
    | cons c t => simp [strLe, lexLe] at h

/-- The SQL `MIN` of a nonempty date list is a member bounding every
member from below. -/
theorem minDate_spec : ∀ (l : List String) (m : String),
    minDate l = some m → m ∈ l ∧ ∀ x ∈ l, strLe m x = true := by
  have key : ∀ (ds : List String) (d : String),
      (ds.foldl strMin d ∈ d :: ds) ∧
      strLe (ds.foldl strMin d) d = true ∧
      ∀ x ∈ ds, strLe (ds.foldl strMin d) x = true := by
    intro ds
    induction ds with
    | nil =>
      intro d
      refine ⟨List.mem_singleton.mpr rfl, strLe_refl d, ?_⟩
      intro x hx
      simp at hx
    | cons y u ih =>
      intro d
      simp only [List.foldl_cons]
      obtain ⟨m1, m2, m3⟩ := ih (strMin d y)
      have hmin_le_d : strLe (strMin d y) d = true := by
        unfold strMin
        split
        · exact strLe_refl d
        · rename_i hne
          rcases strLe_total d y with h | h
          · exact absurd h (by simpa using hne)
          · exact h
      have hmin_le_y : strLe (strMin d y) y = true := by
        unfold strMin
        split
        · assumption
        · exact strLe_refl y
      have strMin_cases : strMin d y = d ∨ strMin d y = y := by
        unfold strMin
        split
        · left
          rfl
        · right
          rfl
      refine ⟨?_, strLe_trans m2 hmin_le_d, ?_⟩
      · rcases List.mem_cons.mp m1 with h | h
        · rcases strMin_cases with hm | hm
          · exact List.mem_cons.mpr (Or.inl (h.trans hm))
          · exact List.mem_cons.mpr
              (Or.inr (List.mem_cons.mpr (Or.inl (h.trans hm))))
        · exact List.mem_cons.mpr (Or.inr (List.mem_cons.mpr (Or.inr h)))
      · intro x hx
        rcases List.mem_cons.mp hx with h | h
        · rw [h]
          exact strLe_trans m2 hmin_le_y
        · exact m3 x h
  intro l m hm
  cases l with
  | nil => simp [minDate] at hm
  | cons d ds =>
    simp only [minDate, Option.some_inj] at hm
    obtain ⟨k1, k2, k3⟩ := key ds d
    subst hm
    refine ⟨k1, ?_⟩
    intro x hx
    rcases List.mem_cons.mp hx with h | h
    · rw [h]
      exact k2
    · exact k3 x h

/-- Replacing under an existing key keeps the key list unchanged. -/
theorem keys_replace {κ ρ : Type} [DecidableEq κ]
    (t : List (κ × ρ)) (k : κ) (v : ρ) :
    ((t.map (fun p => if p.1 = k then (k, v) else p)).map Prod.fst)
      = t.map Prod.fst := by
  induction t with
  | nil => rfl
  | cons p u ih =>
    simp only [List.map_cons, ih]
    split
    · rename_i h
      rw [← h]
    · rfl

/-- Membership in the key list after an `INSERT OR REPLACE`. -/
theorem mem_keys_insertOrReplace {κ ρ : Type} [DecidableEq κ]
    (t : List (κ × ρ)) (k k2 : κ) (v : ρ) :
    (k2 ∈ (insertOrReplace t k v).map Prod.fst) ↔
      (k2 ∈ t.map Prod.fst ∨ k2 = k) := by
  unfold insertOrReplace
  split
  · rename_i hk
    rw [keys_replace]
    constructor
    · exact Or.inl
    · rintro (h | h)
      · exact h
      · rw [h]
        exact hk
  · simp

/-- Replacing under key `k` leaves the row of every other key alone. -/
theorem lookupTable_replace_ne {κ ρ : Type} [DecidableEq κ]
    (t : List (κ × ρ)) (k d : κ) (v : ρ) (hne : d ≠ k) :
    lookupTable (t.map (fun p => if p.1 = k then (k, v) else p)) d
      = lookupTable t d := by
  induction t with
  | nil => rfl
  | cons p u ih =>
    simp only [List.map_cons]
    unfold lookupTable
    by_cases hpk : p.1 = k
    · rw [if_pos hpk]
      rw [if_neg (show ¬((k, v).1 = d) from fun h => hne h.symm)]
      rw [if_neg (show ¬(p.1 = d) from fun h => hne (h.symm.trans hpk))]
      exact ih
    · rw [if_neg hpk]
      by_cases hpd : p.1 = d
      · rw [if_pos hpd, if_pos hpd]
      · rw [if_neg hpd, if_neg hpd]
        exact ih

/-- Appending a row under key `k` leaves the row of every other key
alone. -/
theorem lookupTable_append_ne {κ ρ : Type} [DecidableEq κ]
    (t : List (κ × ρ)) (k d : κ) (v : ρ) (hne : d ≠ k) :
    lookupTable (t ++ [(k, v)]) d = lookupTable t d := by
  induction t with
  | nil =>
    simp only [List.nil_append]
    unfold lookupTable
    rw [if_neg (show ¬((k, v).1 = d) from fun h => hne h.symm)]
    rfl
  | cons p u ih =>
    simp only [List.cons_append]
    unfold lookupTable
    by_cases hpd : p.1 = d
    · rw [if_pos hpd, if_pos hpd]
    · rw [if_neg hpd, if_neg hpd]
      exact ih

/-- An `INSERT OR REPLACE` leaves the row of every other key alone. -/
theorem lookupTable_insertOrReplace_ne {κ ρ : Type} [DecidableEq κ]
    (t : List (κ × ρ)) (k d : κ) (v : ρ) (hne : d ≠ k) :
    lookupTable (insertOrReplace t k v) d = lookupTable t d := by
  unfold insertOrReplace
  split
  · exact lookupTable_replace_ne t k d v hne
  · exact lookupTable_append_ne t k d v hne

/-- Membership transfers through the insertion step of the date sort. -/
theorem mem_insertByDate (e x : String × DayStats) :
    ∀ l : List (String × DayStats),
    (x ∈ insertByDate e l ↔ x = e ∨ x ∈ l) := by
  intro l
  induction l with
  | nil => simp [insertByDate]
  | cons f t ih =>
    unfold insertByDate
    split
    · simp
    · simp only [List.mem_cons, ih]
      constructor
      · rintro (h | h | h)
        · right
          left
          exact h
        · left
          exact h
        · right
          right
          exact h
      · rintro (h | h | h)
        · right
          left
          exact h
        · left
          exact h
        · right
          right
          exact h

/-- Membership transfers through the date sort. -/
theorem mem_sortByDate (x : String × DayStats) :
    ∀ l : List (String × DayStats), (x ∈ sortByDate l ↔ x ∈ l) := by
  intro l
  induction l with
  | nil => simp [sortByDate]
  | cons e t ih =>
    unfold sortByDate
    rw [mem_insertByDate, ih]
    simp

/-- When every entry satisfies a skip condition, the write loop leaves the
store untouched and imports nothing. -/
theorem fold_skip_all (e : Option String) (ex : List String) :
    ∀ (l : List (String × DayStats)) (acc : WriteResult),
    (∀ p ∈ l, p.1 ∈ ex ∨ ∃ e0, e = some e0 ∧ strLe e0 p.1 = true) →
    ((l.foldl (writeDay e ex) acc).store = acc.store ∧
     (l.foldl (writeDay e ex) acc).imported = acc.imported) := by
  intro l
  induction l with
  | nil => intro acc _; exact ⟨rfl, rfl⟩
  | cons p t ih =>
    intro acc hall
    simp only [List.foldl_cons]
    have hstep : (writeDay e ex acc p).store = acc.store ∧
        (writeDay e ex acc p).imported = acc.imported := by
      unfold writeDay
      by_cases hm : p.1 ∈ ex
      · rw [if_pos hm]
        exact ⟨rfl, rfl⟩
      · rcases hall p (List.mem_cons_self p t) with h | ⟨e0, he, hle⟩
        · exact absurd h hm
        · rw [if_neg hm]
          subst he
          dsimp only
          rw [if_pos hle]
          exact ⟨rfl, rfl⟩
    obtain ⟨ihs, ihi⟩ := ih (writeDay e ex acc p)
      (fun q hq => hall q (List.mem_cons_of_mem p hq))
    exact ⟨ihs.trans hstep.1, ihi.trans hstep.2⟩

/-- One write step never removes a date from the snapshot table. -/
theorem writeDay_keys_mono (e : Option String) (ex : List String)
    (acc : WriteResult) (p : String × DayStats) (d : String)
    (hd : d ∈ existing_dates acc.store) :
    d ∈ existing_dates (writeDay e ex acc p).store := by
  unfold writeDay
  dsimp only
  split_ifs
  · exact hd
  · exact hd
  · exact (mem_keys_insertOrReplace _ _ _ _).mpr (Or.inl hd)

/-- The write loop never removes a date from the snapshot table. -/
theorem fold_keys_mono (e : Option String) (ex : List String) :
    ∀ (l : List (String × DayStats)) (acc : WriteResult) (d : String),
    d ∈ existing_dates acc.store →
    d ∈ existing_dates (l.foldl (writeDay e ex) acc).store := by
  intro l
  induction l with
  | nil => intro acc d hd; exact hd
  | cons p t ih =>
    intro acc d hd
    simp only [List.foldl_cons]
    exact ih (writeDay e ex acc p) d (writeDay_keys_mono e ex acc p d hd)

/-- Every processed entry ends up present, already known, or at/after the
floor date. -/
theorem fold_outcome (e : Option String) (ex : List String) :
    ∀ (l : List (String × DayStats)) (acc : WriteResult)
      (p : String × DayStats), p ∈ l →
    (p.1 ∈ existing_dates (l.foldl (writeDay e ex) acc).store ∨
     p.1 ∈ ex ∨ ∃ e0, e = some e0 ∧ strLe e0 p.1 = true) := by
  intro l
  induction l with
  | nil => intro acc p hp; simp at hp
  | cons q t ih =>
    intro acc p hp
    simp only [List.foldl_cons]
    rcases List.mem_cons.mp hp with h | h
    · subst h
      by_cases hm : p.1 ∈ ex
      · exact Or.inr (Or.inl hm)
      · cases he : e with
        | some e0 =>
          by_cases hle : strLe e0 p.1 = true
          · exact Or.inr (Or.inr ⟨e0, rfl, hle⟩)
          · left
            apply fold_keys_mono
            unfold writeDay
            rw [if_neg hm]
            subst he
            dsimp only
            rw [if_neg hle]
            exact (mem_keys_insertOrReplace _ _ _ _).mpr (Or.inr rfl)
        | none =>
          left
          apply fold_keys_mono
          unfold writeDay
          rw [if_neg hm]
          subst he
          dsimp only
          rw [if_neg (by simp : ¬ (false = true))]
          exact (mem_keys_insertOrReplace _ _ _ _).mpr (Or.inr rfl)
    · exact ih (writeDay e ex acc q) p h

/-- Every date of the written snapshot table either was already there or
came from a processed entry that was new and strictly before the floor
date. -/
theorem fold_origin (e : Option String) (ex : List String) :
    ∀ (l : List (String × DayStats)) (acc : WriteResult) (d : String),
    d ∈ existing_dates (l.foldl (writeDay e ex) acc).store →
    (d ∈ existing_dates acc.store ∨
     ((∃ s, (d, s) ∈ l) ∧ d ∉ ex ∧
       ∀ e0, e = some e0 → strLe e0 d = false)) := by
  intro l
  induction l with
  | nil => intro acc d hd; exact Or.inl hd
  | cons p t ih =>
    intro acc d hd
    simp only [List.foldl_cons] at hd
    rcases ih (writeDay e ex acc p) d hd with h | ⟨⟨s, hs⟩, hnx, hfl⟩
    · revert h
      unfold writeDay
      dsimp only
      split_ifs with h1 h2
      · exact fun h => Or.inl h
      · exact fun h => Or.inl h
      · intro h
        rcases (mem_keys_insertOrReplace _ _ _ _).mp h with h | h
        · exact Or.inl h
        · subst h
          refine Or.inr ⟨⟨p.2, List.mem_cons.mpr (Or.inl rfl)⟩, h1, ?_⟩
          intro e0 he0
          subst he0
          dsimp only at h2
          exact Bool.not_eq_true _ ▸ h2
    · exact Or.inr ⟨⟨s, List.mem_cons.mpr (Or.inr hs)⟩, hnx, hfl⟩

/-- The write loop leaves the rows of every date already in the
existing-date set untouched, in both tables. -/
theorem fold_preserve (e : Option String) (ex : List String) :
    ∀ (l : List (String × DayStats)) (acc : WriteResult) (d : String),
    d ∈ ex →
    (lookupTable (l.foldl (writeDay e ex) acc).store.daily_snapshots d
       = lookupTable acc.store.daily_snapshots d ∧
     ∀ model : String,
       lookupTable (l.foldl (writeDay e ex) acc).store.model_usage (d, model)
         = lookupTable acc.store.model_usage (d, model)) := by
  intro l
  induction l with
  | nil => intro acc d _; exact ⟨rfl, fun _ => rfl⟩
  | cons p t ih =>
    intro acc d hd
    simp only [List.foldl_cons]
    obtain ⟨ih1, ih2⟩ := ih (writeDay e ex acc p) d hd
    have hstep :
        lookupTable (writeDay e ex acc p).store.daily_snapshots d
          = lookupTable acc.store.daily_snapshots d ∧
        ∀ model : String,
          lookupTable (writeDay e ex acc p).store.model_usage (d, model)
            = lookupTable acc.store.model_usage (d, model) := by
      unfold writeDay
      dsimp only
      split_ifs with h1 h2
      · exact ⟨rfl, fun _ => rfl⟩
      · exact ⟨rfl, fun _ => rfl⟩
      · have hne : d ≠ p.1 := by
          intro h
          rw [← h] at h1
          exact h1 hd
        constructor
        · exact lookupTable_insertOrReplace_ne _ _ _ _ hne
        · intro model
          refine lookupTable_insertOrReplace_ne _ _ _ _ ?_
          intro h
          exact hne (congrArg Prod.fst h)
    exact ⟨ih1.trans hstep.1, fun model => (ih2 model).trans (hstep.2 model)⟩

/-- Reading `earliest_date` back: the SQL minimum exists and is not the
empty string. -/
theorem earliest_date_spec (store : Store) (e0 : String)
    (h : earliest_date store = some e0) :
    minDate (existing_dates store) = some e0 ∧ e0 ≠ "" := by
  unfold earliest_date at h
  cases hm : minDate (existing_dates store) with
  | none => rw [hm] at h; exact absurd h (by simp)
  | some m =>
    rw [hm] at h
    dsimp only at h
    by_cases he : m = ""
    · rw [if_pos he] at h
      exact absurd h (by simp)
    · rw [if_neg he] at h
      obtain rfl : m = e0 := by
        simpa using h
      exact ⟨rfl, he⟩

/-- A nonempty date list has a SQL minimum. -/
theorem minDate_isSome (l : List String) (d : String) (hd : d ∈ l) :
    ∃ m, minDate l = some m := by
  cases l with
  | nil => simp at hd
  | cons x t => exact ⟨t.foldl strMin x, rfl⟩

/-- **C7**: the persistence writer leaves the rows (snapshot and model
usage) of every date already present untouched; every date it adds is
absent from the store and strictly before the earliest existing date; and
writing the same per-date aggregates a second time to the
already-populated result imports zero new dates and leaves the store
byte-for-byte unchanged. -/
theorem C7_write_idempotent :
    (∀ (stats : List (String × DayStats)) (store : Store) (d : String),
      d ∈ existing_dates store →
      (lookupTable (write_to_sqlite stats store).store.daily_snapshots d
         = lookupTable store.daily_snapshots d ∧
       ∀ model : String,
         lookupTable (write_to_sqlite stats store).store.model_usage
             (d, model)
           = lookupTable store.model_usage (d, model))) ∧
    (∀ (stats : List (String × DayStats)) (store : Store) (d : String),
      d ∈ existing_dates (write_to_sqlite stats store).store →
      d ∉ existing_dates store →
      ((∃ s, (d, s) ∈ stats) ∧
       ∀ e0, earliest_date store = some e0 → strLe e0 d = false)) ∧
    (∀ (stats : List (String × DayStats)) (store : Store),
      (∀ p ∈ stats, p.1 ≠ "") →
      ((write_to_sqlite stats
          (write_to_sqlite stats store).store).imported = 0 ∧
       (write_to_sqlite stats (write_to_sqlite stats store).store).store
         = (write_to_sqlite stats store).store)) := by
  refine ⟨?_, ?_, ?_⟩
  · intro stats store d hd
    exact fold_preserve (earliest_date store) (existing_dates store)
      (sortByDate stats) ⟨store, 0, 0, 0⟩ d hd
  · intro stats store d hd hnew
    rcases fold_origin (earliest_date store) (existing_dates store)
        (sortByDate stats) ⟨store, 0, 0, 0⟩ d hd with h | ⟨⟨s, hs⟩, -, hfl⟩
    · exact absurd h hnew
    · exact ⟨⟨s, (mem_sortByDate (d, s) stats).mp hs⟩, hfl⟩
  · intro stats store hne
    have hskip : ∀ p ∈ sortByDate stats,
        p.1 ∈ existing_dates (write_to_sqlite stats store).store ∨
        ∃ e1, earliest_date (write_to_sqlite stats store).store = some e1 ∧
          strLe e1 p.1 = true := by
      intro p hp
      rcases fold_outcome (earliest_date store) (existing_dates store)
          (sortByDate stats) ⟨store, 0, 0, 0⟩ p hp with h | h | ⟨e0, he0, hle⟩
      · exact Or.inl h
      · exact Or.inl (fold_keys_mono (earliest_date store)
          (existing_dates store) (sortByDate stats) ⟨store, 0, 0, 0⟩ p.1 h)
      · obtain ⟨hmin0, hne0⟩ := earliest_date_spec store e0 he0
        obtain ⟨he0mem, hmin0all⟩ :=
          minDate_spec (existing_dates store) e0 hmin0
        have he0r1 : e0 ∈ existing_dates
            (write_to_sqlite stats store).store :=
          fold_keys_mono (earliest_date store) (existing_dates store)
            (sortByDate stats) ⟨store, 0, 0, 0⟩ e0 he0mem
        obtain ⟨m1, hm1⟩ := minDate_isSome
          (existing_dates (write_to_sqlite stats store).store) e0 he0r1
        obtain ⟨hm1mem, hm1all⟩ := minDate_spec _ m1 hm1
        have hm1e0 : strLe m1 e0 = true := hm1all e0 he0r1
        have hm1ne : m1 ≠ "" := by
          rcases fold_origin (earliest_date store) (existing_dates store)
              (sortByDate stats) ⟨store, 0, 0, 0⟩ m1 hm1mem
            with h | ⟨⟨s, hs⟩, -, -⟩
          · have he0m1 : strLe e0 m1 = true := hmin0all m1 h
            have : m1 = e0 := strLe_antisymm hm1e0 he0m1
            rw [this]
            exact hne0
          · exact hne (m1, s) ((mem_sortByDate (m1, s) stats).mp hs)
        have hearliest1 : earliest_date
            (write_to_sqlite stats store).store = some m1 := by
          unfold earliest_date
          rw [hm1]
          dsimp only
          rw [if_neg hm1ne]
        exact Or.inr ⟨m1, hearliest1, strLe_trans hm1e0 hle⟩
    obtain ⟨hs, hi⟩ := fold_skip_all
      (earliest_date (write_to_sqlite stats store).store)
      (existing_dates (write_to_sqlite stats store).store)
      (sortByDate stats) ⟨(write_to_sqlite stats store).store, 0, 0, 0⟩
      (by
        intro p hp
        rcases hskip p hp with h | h
        · exact Or.inl h
        · exact Or.inr h)
    exact ⟨hi, hs⟩

/-- Witness for **C7**: one concrete back-fill into a one-row store,
written twice; the second write imports nothing and changes nothing. -/
theorem C7_write_idempotent_witness :
    (write_to_sqlite [("2025-01-01", {})]
        (write_to_sqlite [("2025-01-01", {})]
          { daily_snapshots := [("2025-06-01", ⟨0, 1, 2, 3⟩)]
            model_usage := [] }).store).imported = 0 ∧
    (write_to_sqlite [("2025-01-01", {})]
        (write_to_sqlite [("2025-01-01", {})]
          { daily_snapshots := [("2025-06-01", ⟨0, 1, 2, 3⟩)]
            model_usage := [] }).store).store
      = (write_to_sqlite [("2025-01-01", {})]
          { daily_snapshots := [("2025-06-01", ⟨0, 1, 2, 3⟩)]
            model_usage := [] }).store :=
  C7_write_idempotent.2.2 [("2025-01-01", {})]
    { daily_snapshots := [("2025-06-01", ⟨0, 1, 2, 3⟩)]
      model_usage := [] }
    (by
      intro p hp
      simp at hp
      subst hp
      decide)
